import Mathlib

/-!  Verification of the TokyoTimes NPC core against its specification. -/

namespace TokyoTimes

/-- A scheduled action, from `ScheduleAction` in `src/ai/schedule.py`:
`time_minutes` is the HH:MM time parsed to minutes since midnight, and
`action_type` the action kind string. -/
structure ScheduleAction where
  timeMinutes : Nat
  actionType : String
deriving DecidableEq, Repr

/-- The scan loop inside `ScheduleController._find_next_action`
(`src/ai/schedule.py` lines 163-167): walk the (sorted) action list,
remembering the most recent action whose time is `<= current_time`, and
stop at the first action exceeding it. -/
def findActiveScan : List ScheduleAction → Option ScheduleAction → Nat → Option ScheduleAction
  | [], acc, _ => acc
  | a :: rest, acc, now =>
      if a.timeMinutes ≤ now then findActiveScan rest (some a) now else acc

/-- `ScheduleController._find_next_action` (`src/ai/schedule.py` lines 155-174):
returns the latest action whose time is `<= current_time`; if none qualifies
and looping is enabled, wraps to the first action. Empty schedules yield none. -/
def find_next_action (actions : List ScheduleAction) (loopEnabled : Bool)
    (currentTime : Nat) : Option ScheduleAction :=
  if actions = [] then none
  else
    match findActiveScan actions none currentTime with
    | some a => some a
    | none => if loopEnabled then actions.head? else none

/-- Sortedness of a schedule: ascending in minute-of-day, as established by
`self.actions.sort(key=lambda a: a.time_minutes)` in `_load_schedule`. -/
def ScheduleSorted (actions : List ScheduleAction) : Prop :=
  actions.Pairwise (fun a b => a.timeMinutes ≤ b.timeMinutes)

instance instDecScheduleSorted (l : List ScheduleAction) :
    Decidable (ScheduleSorted l) := by
  unfold ScheduleSorted; infer_instance

/-- Prepending to a non-empty list does not change its last element. -/
theorem getLast?_cons_of_ne {α : Type} (a : α) (l : List α) (h : l ≠ []) :
    (a :: l).getLast? = l.getLast? := by
  cases l with
  | nil => exact absurd rfl h
  | cons b t => exact List.getLast?_cons_cons

theorem findActiveScan_sorted (now : Nat) :
    ∀ (l : List ScheduleAction) (acc : Option ScheduleAction), ScheduleSorted l →
      findActiveScan l acc now =
        match (l.filter (fun a => a.timeMinutes ≤ now)).getLast? with
        | some a => some a
        | none => acc := by
  intro l
  induction l with
  | nil => intro acc _; simp [findActiveScan]
  | cons a rest ih =>
    intro acc hs
    have hs' : (∀ b ∈ rest, a.timeMinutes ≤ b.timeMinutes) ∧ ScheduleSorted rest :=
      List.pairwise_cons.mp hs
    by_cases h : a.timeMinutes ≤ now
    · have h1 : findActiveScan (a :: rest) acc now = findActiveScan rest (some a) now := by
        simp [findActiveScan, h]
      have hfc : (a :: rest).filter (fun x => x.timeMinutes ≤ now)
          = a :: rest.filter (fun x => x.timeMinutes ≤ now) := by
        simp [List.filter_cons, h]
      rw [h1, ih (some a) hs'.2, hfc]
      generalize rest.filter (fun x => x.timeMinutes ≤ now) = fl
      cases fl with
      | nil => simp
      | cons c t =>
        rw [List.getLast?_cons_cons]
        cases hg : (c :: t).getLast? with
        | none => simp at hg
        | some x => rfl
    · -- every later entry also exceeds `now`, so the filter is empty
      have hemp : rest.filter (fun x => x.timeMinutes ≤ now) = [] := by
        rw [List.filter_eq_nil_iff]
        intro b hb
        simp only [decide_eq_true_eq]
        intro hble
        exact h (le_trans (hs'.1 b hb) hble)
      simp [findActiveScan, h, List.filter_cons, hemp]

/-- If the last element of a list satisfies the predicate, it is the last
element of the filtered list. -/
theorem getLast?_filter_of_getLast {α : Type} (p : α → Bool) :
    ∀ (l : List α) (hne : l ≠ []), p (l.getLast hne) = true →
      (l.filter p).getLast? = some (l.getLast hne) := by
  intro l
  induction l with
  | nil => intro hne; exact absurd rfl hne
  | cons a rest ih =>
    intro _ hp
    cases rest with
    | nil =>
      simp only [List.getLast] at hp ⊢
      simp [List.filter_cons, hp]
    | cons b tail =>
      have hne' : b :: tail ≠ [] := by simp
      rw [List.getLast_cons hne'] at hp
      have hlast := ih hne' hp
      rw [List.getLast_cons hne']
      by_cases hpa : p a
      · rw [List.filter_cons_of_pos hpa]
        have hfil : (b :: tail).filter p ≠ [] := by
          intro hc; rw [hc] at hlast; simp at hlast
        rw [getLast?_cons_of_ne _ _ hfil]
        exact hlast
      · rw [List.filter_cons_of_neg (by simpa using hpa)]
        exact hlast

/-- Members of a sorted list are bounded by its last element. -/
theorem sorted_le_getLast :
    ∀ (l : List ScheduleAction) (hne : l ≠ []), ScheduleSorted l →
      ∀ b ∈ l, b.timeMinutes ≤ (l.getLast hne).timeMinutes := by
  intro l
  induction l with
  | nil => intro hne; exact absurd rfl hne
  | cons a rest ih =>
    intro _ hs b hb
    have hs' : (∀ c ∈ rest, a.timeMinutes ≤ c.timeMinutes) ∧ ScheduleSorted rest :=
      List.pairwise_cons.mp hs
    cases rest with
    | nil =>
      simp only [List.mem_singleton] at hb
      subst hb; simp [List.getLast]
    | cons c tail =>
      have hne' : c :: tail ≠ [] := by simp
      rw [List.getLast_cons hne']
      rcases List.mem_cons.mp hb with hba | hbr
      · subst hba
        exact le_trans (hs'.1 c (by simp)) (ih hne' hs'.2 c (by simp))
      · exact ih hne' hs'.2 b hbr

/-- With looping disabled, resolution returns the last entry of the
time-filtered prefix (or none). -/
theorem find_next_action_no_loop (actions : List ScheduleAction) (now : Nat)
    (hs : ScheduleSorted actions) :
    find_next_action actions false now =
      (actions.filter (fun a => a.timeMinutes ≤ now)).getLast? := by
  unfold find_next_action
  by_cases hne : actions = []
  · subst hne; simp
  · rw [if_neg hne, findActiveScan_sorted now actions none hs]
    cases (actions.filter (fun a => a.timeMinutes ≤ now)).getLast? <;> simp

/-- With looping enabled and a non-empty schedule, resolution returns the
last time-qualifying entry, or wraps to the head when none qualifies. -/
theorem find_next_action_loop (actions : List ScheduleAction) (now : Nat)
    (hs : ScheduleSorted actions) (hne : actions ≠ []) :
    find_next_action actions true now =
      match (actions.filter (fun a => a.timeMinutes ≤ now)).getLast? with
      | some a => some a
      | none => actions.head? := by
  unfold find_next_action
  rw [if_neg hne, findActiveScan_sorted now actions none hs]
  cases (actions.filter (fun a => a.timeMinutes ≤ now)).getLast? <;> simp

/-- The spec's example schedule: `[("08:00","idle"), ("09:00","move_to")]`,
with times parsed to minutes (480 and 540). -/
def exampleSchedule : List ScheduleAction :=
  [⟨480, "idle"⟩, ⟨540, "move_to"⟩]

/-- C5: for every non-empty ascending-sorted action list,
`_find_next_action` resolves the latest entry whose time is `<= now`; the
last entry persists past the end of the schedule when looping is disabled;
and on the example schedule the queries at minutes 485, 545 and 1000
resolve the idle, move_to and (still) move_to entries respectively. -/
theorem C5_schedule_latest_entry (actions : List ScheduleAction) (now : Nat)
    (hs : ScheduleSorted actions) (hne : actions ≠ []) :
    ((∃ b ∈ actions, b.timeMinutes ≤ now) →
      ∃ a, find_next_action actions false now = some a ∧ a ∈ actions ∧
        a.timeMinutes ≤ now ∧
        ∀ b ∈ actions, b.timeMinutes ≤ now → b.timeMinutes ≤ a.timeMinutes) ∧
    ((actions.getLast hne).timeMinutes ≤ now →
      find_next_action actions false now = some (actions.getLast hne)) ∧
    find_next_action exampleSchedule false 485 = some ⟨480, "idle"⟩ ∧
    find_next_action exampleSchedule false 545 = some ⟨540, "move_to"⟩ ∧
    find_next_action exampleSchedule false 1000 = some ⟨540, "move_to"⟩ := by
  refine ⟨?_, ?_, by decide, by decide, by decide⟩
  · rintro ⟨b, hb, hble⟩
    have hfne : actions.filter (fun a => a.timeMinutes ≤ now) ≠ [] := by
      intro hc
      have : b ∈ actions.filter (fun a => a.timeMinutes ≤ now) :=
        List.mem_filter.mpr ⟨hb, by simpa using hble⟩
      rw [hc] at this; simp at this
    refine ⟨(actions.filter (fun a => a.timeMinutes ≤ now)).getLast hfne, ?_, ?_, ?_, ?_⟩
    · rw [find_next_action_no_loop actions now hs]
      exact List.getLast?_eq_getLast_of_ne_nil hfne
    · have := List.getLast_mem hfne
      exact (List.mem_filter.mp this).1
    · have := List.getLast_mem hfne
      simpa using (List.mem_filter.mp this).2
    · intro c hc hcle
      have hcf : c ∈ actions.filter (fun a => a.timeMinutes ≤ now) :=
        List.mem_filter.mpr ⟨hc, by simpa using hcle⟩
      exact sorted_le_getLast _ hfne (hs.filter _) c hcf
  · intro hlast
    rw [find_next_action_no_loop actions now hs]
    exact getLast?_filter_of_getLast _ actions hne (by simpa using hlast)

theorem C5_schedule_latest_entry_witness :
    find_next_action exampleSchedule false 1000
      = some (exampleSchedule.getLast (by decide)) :=
  (C5_schedule_latest_entry exampleSchedule 1000 (by decide) (by decide)).2.1
    (by decide)

/-- C3 counterexample: on the looping example schedule, resolving at minute
1000 — strictly past the last entry's time 540 — yields the LAST entry, not
the first one the claim predicts. -/
theorem C3_loop_wrap_counterexample :
    ScheduleSorted exampleSchedule ∧ exampleSchedule ≠ [] ∧
    (∀ a ∈ exampleSchedule, a.timeMinutes ≤ 540) ∧ 540 < 1000 ∧
    find_next_action exampleSchedule true 1000 = some ⟨540, "move_to"⟩ ∧
    exampleSchedule.head? = some ⟨480, "idle"⟩ ∧
    (⟨540, "move_to"⟩ : ScheduleAction) ≠ ⟨480, "idle"⟩ := by
  decide

/-- C3 (amended): with looping enabled, resolving strictly past the last
entry's time yields the LAST entry (not the first); the wrap to the first
entry happens exactly when the current time is strictly before every
entry's time. -/
theorem C3_loop_wrap_amended (actions : List ScheduleAction) (now : Nat)
    (hs : ScheduleSorted actions) (hne : actions ≠ []) :
    ((actions.getLast hne).timeMinutes < now →
      find_next_action actions true now = some (actions.getLast hne)) ∧
    ((∀ a ∈ actions, now < a.timeMinutes) →
      find_next_action actions true now = actions.head?) := by
  constructor
  · intro hlast
    rw [find_next_action_loop actions now hs hne,
      getLast?_filter_of_getLast _ actions hne (by simp [Nat.le_of_lt hlast])]
  · intro hall
    have hemp : actions.filter (fun a => a.timeMinutes ≤ now) = [] := by
      rw [List.filter_eq_nil_iff]
      intro b hb
      simpa using Nat.not_le_of_lt (hall b hb)
    rw [find_next_action_loop actions now hs hne, hemp]
    simp

theorem C3_loop_wrap_amended_witness :
    find_next_action exampleSchedule true 300 = exampleSchedule.head? :=
  (C3_loop_wrap_amended exampleSchedule 300 (by decide) (by decide)).2 (by decide)

/-- State name constants from `src/ai/state_machine.py` lines 5-7. -/
def STATE_IDLE : String := "IdleState"

def STATE_WANDER : String := "WanderState"

def STATE_TRAVEL : String := "TravelToSceneState"

/-- `TRAVEL_PROBABILITY_MULT = 0.2` (`src/ai/state_machine.py` line 23). -/
def TRAVEL_PROBABILITY_MULT : ℚ := 2/10

/-- One hop of a cross-scene path: `(scene_name, portal_id, spawn_point)`
as consumed by `NPC._follow_path` and `TravelToSceneState`. -/
structure SceneHop where
  sceneName : String
  portalId : Option Nat
  spawn : Int × Int
deriving DecidableEq, Repr

/-- `StateMachine._is_mid_travel` (`src/ai/state_machine.py` lines 320-324):
`bool(scene_path and current_step < len(scene_path))` — a `None` or empty
scene path is falsy. -/
def is_mid_travel (scenePath : Option (List SceneHop)) (currentStep : Nat) : Bool :=
  match scenePath with
  | none => false
  | some l => !l.isEmpty && decide (currentStep < l.length)

/-- `StateMachine._decide_next_state` (`src/ai/state_machine.py` lines
359-400): one uniform draw `rand`, compared cumulatively; mid-travel scales
the wander probability by `TRAVEL_PROBABILITY_MULT` and gives travel
`1 - wander_p`; a set force-travel flag overrides everything. -/
def decide_next_state (wanderProbability travelProbability rand : ℚ)
    (midTravel forceTravel : Bool) : String :=
  let wander_p :=
    if midTravel then max (wanderProbability * TRAVEL_PROBABILITY_MULT) 0
    else wanderProbability
  let travel_p := if midTravel then 1 - wander_p else travelProbability
  if forceTravel then STATE_TRAVEL
  else if rand < wander_p then STATE_WANDER
  else if rand < wander_p + travel_p then STATE_TRAVEL
  else STATE_IDLE

/-- C4 counterexample: with the default probabilities (wander 0.65, travel
0.10), mid-travel and draw `r = 0.8`, the claim's thresholds put `r` past
`0.2*0.65 + (0.10 + 0.8*0.65) = 0.75`, predicting Idle — but the code
selects Travel (mid-travel gives travel ALL of the mass `1 - 0.2*0.65`). -/
theorem C4_midtravel_counterexample :
    decide_next_state (65/100) (10/100) (8/10) true false = STATE_TRAVEL ∧
    STATE_TRAVEL ≠ STATE_IDLE ∧
    (65/100 : ℚ) * TRAVEL_PROBABILITY_MULT
        + (10/100 + (1 - TRAVEL_PROBABILITY_MULT) * (65/100)) ≤ 8/10 := by
  refine ⟨?_, by decide, by norm_num [TRAVEL_PROBABILITY_MULT]⟩
  norm_num [decide_next_state, TRAVEL_PROBABILITY_MULT]

/-- C4 (amended): with the force flag clear, the next state comes from one
cumulative comparison of the draw `r`: Wander below `wander_p`, Travel in
`[wander_p, wander_p + travel_p)`, Idle above. Without mid-travel these are
the configured probabilities; mid-travel, the wander threshold becomes
`0.2 * wanderProbability` and travel receives ALL the remaining mass
(`travel_p = 1 - 0.2 * wanderProbability`), so Travel is selected whenever
`r ≥ 0.2 * wanderProbability` and Idle is never selected mid-travel. A set
force flag unconditionally selects Travel. -/
theorem C4_next_state_amended (w t r : ℚ) (hw : 0 ≤ w) (ht : 0 ≤ t) (hr1 : r < 1) :
    (∀ mid : Bool, decide_next_state w t r mid true = STATE_TRAVEL) ∧
    (decide_next_state w t r false false = STATE_WANDER ↔ r < w) ∧
    (decide_next_state w t r false false = STATE_TRAVEL ↔ w ≤ r ∧ r < w + t) ∧
    (decide_next_state w t r false false = STATE_IDLE ↔ w + t ≤ r) ∧
    (decide_next_state w t r true false = STATE_WANDER
      ↔ r < w * TRAVEL_PROBABILITY_MULT) ∧
    (decide_next_state w t r true false = STATE_TRAVEL
      ↔ w * TRAVEL_PROBABILITY_MULT ≤ r) ∧
    decide_next_state w t r true false ≠ STATE_IDLE := by
  have hWT : STATE_WANDER ≠ STATE_TRAVEL := by decide
  have hWI : STATE_WANDER ≠ STATE_IDLE := by decide
  have hTW : STATE_TRAVEL ≠ STATE_WANDER := by decide
  have hTI : STATE_TRAVEL ≠ STATE_IDLE := by decide
  have hIW : STATE_IDLE ≠ STATE_WANDER := by decide
  have hIT : STATE_IDLE ≠ STATE_TRAVEL := by decide
  have hmax : max (w * TRAVEL_PROBABILITY_MULT) 0 = w * TRAVEL_PROBABILITY_MULT :=
    max_eq_left (mul_nonneg hw (by norm_num [TRAVEL_PROBABILITY_MULT]))
  have hdef0 : decide_next_state w t r false false =
      if r < w then STATE_WANDER
      else if r < w + t then STATE_TRAVEL else STATE_IDLE := rfl
  have hdef1 : decide_next_state w t r true false =
      if r < max (w * TRAVEL_PROBABILITY_MULT) 0 then STATE_WANDER
      else if r < max (w * TRAVEL_PROBABILITY_MULT) 0
          + (1 - max (w * TRAVEL_PROBABILITY_MULT) 0) then STATE_TRAVEL
      else STATE_IDLE := rfl
  rw [hmax] at hdef1
  have hone : w * TRAVEL_PROBABILITY_MULT + (1 - w * TRAVEL_PROBABILITY_MULT) = 1 := by
    ring
  rw [hone] at hdef1
  refine ⟨fun mid => rfl, ?_, ?_, ?_, ?_, ?_, ?_⟩
  · rw [hdef0]
    by_cases h1 : r < w
    · rw [if_pos h1]; exact iff_of_true rfl h1
    · rw [if_neg h1]
      by_cases h2 : r < w + t
      · rw [if_pos h2]; exact iff_of_false hTW h1
      · rw [if_neg h2]; exact iff_of_false hIW h1
  · rw [hdef0]
    by_cases h1 : r < w
    · rw [if_pos h1]
      exact iff_of_false hWT (fun hc => absurd h1 (not_lt_of_le hc.1))
    · rw [if_neg h1]
      by_cases h2 : r < w + t
      · rw [if_pos h2]; exact iff_of_true rfl ⟨le_of_not_lt h1, h2⟩
      · rw [if_neg h2]; exact iff_of_false hIT (fun hc => absurd hc.2 h2)
  · rw [hdef0]
    by_cases h1 : r < w
    · rw [if_pos h1]
      exact iff_of_false hWI
        (fun hc => absurd (lt_of_lt_of_le h1 (le_add_of_nonneg_right ht))
          (not_lt_of_le hc))
    · rw [if_neg h1]
      by_cases h2 : r < w + t
      · rw [if_pos h2]; exact iff_of_false hTI (fun hc => absurd h2 (not_lt_of_le hc))
      · rw [if_neg h2]; exact iff_of_true rfl (le_of_not_lt h2)
  · rw [hdef1]
    by_cases h1 : r < w * TRAVEL_PROBABILITY_MULT
    · rw [if_pos h1]; exact iff_of_true rfl h1
    · rw [if_neg h1, if_pos hr1]; exact iff_of_false hTW h1
  · rw [hdef1]
    by_cases h1 : r < w * TRAVEL_PROBABILITY_MULT
    · rw [if_pos h1]; exact iff_of_false hWT (fun hc => absurd h1 (not_lt_of_le hc))
    · rw [if_neg h1, if_pos hr1]; exact iff_of_true rfl (le_of_not_lt h1)
  · rw [hdef1]
    by_cases h1 : r < w * TRAVEL_PROBABILITY_MULT
    · rw [if_pos h1]; exact hWI
    · rw [if_neg h1, if_pos hr1]; exact hTI

theorem C4_next_state_amended_witness :
    decide_next_state (65/100) (10/100) (8/10) true false = STATE_TRAVEL :=
  ((C4_next_state_amended (65/100) (10/100) (8/10) (by norm_num) (by norm_num)
    (by norm_num)).2.2.2.2.2.1).mpr (by norm_num [TRAVEL_PROBABILITY_MULT])

/-- An RGBA color as returned by `pygame.Surface.get_at`. -/
structure Color where
  r : Nat
  g : Nat
  b : Nat
  a : Nat
deriving DecidableEq, Repr

/-- A scene mask image: dimensions plus the pixel lookup `get_at`,
modelled as a total function consulted only at in-bounds coordinates
(`src/world/mask_collision.py` stores the surface and its size). -/
structure Mask where
  width : Nat
  height : Nat
  pix : Nat → Nat → Color

/-- The out-of-bounds test shared by `is_walkable` and `is_portal`:
`x < 0 or y < 0 or x >= self.width or y >= self.height`. -/
def inBounds (m : Mask) (x y : Int) : Bool :=
  !(x < 0 || y < 0 || x ≥ (m.width : Int) || y ≥ (m.height : Int))

/-- `self.mask_image.get_at((int(x), int(y)))` for in-bounds coordinates. -/
def getAt (m : Mask) (x y : Int) : Color :=
  m.pix x.toNat y.toNat

/-- The white-portal-pixel test used throughout `mask_collision.py`:
`color.a > 0 and color.r == 255 and color.g == 255 and color.b == 255`. -/
def isOpaqueWhite (c : Color) : Bool :=
  c.a > 0 && c.r == 255 && c.g == 255 && c.b == 255

/-- `MaskCollisionSystem.is_walkable` (`src/world/mask_collision.py` lines
23-34): out-of-bounds is not walkable; otherwise walkable iff the pixel is
opaque and pure black or pure white. -/
def is_walkable (m : Mask) (x y : Int) : Bool :=
  if !inBounds m x y then false
  else
    let c := getAt m x y
    if c.a > 0 then
      (c.r == 0 && c.g == 0 && c.b == 0) || (c.r == 255 && c.g == 255 && c.b == 255)
    else false

/-- An in-bounds opaque-white (portal-colored) pixel. -/
def whiteAt (m : Mask) (x y : Int) : Bool :=
  inBounds m x y && isOpaqueWhite (getAt m x y)

/-- The finite set of portal-colored pixels of a mask. -/
def whitePix (m : Mask) : Finset (Int × Int) :=
  ((Finset.range m.width ×ˢ Finset.range m.height).image
    (fun p => ((p.1 : Int), (p.2 : Int)))).filter (fun p => whiteAt m p.1 p.2)

/-- The worklist loop of `MaskCollisionSystem._flood_fill_portal`
(`src/world/mask_collision.py` lines 96-119), with an explicit fuel
parameter standing in for the unbounded `while stack:` loop (fuel
exhaustion yields `none`; `floodFuel` below always suffices). Each popped
pixel is skipped if already visited or not an in-bounds portal-colored
pixel; otherwise it joins `visited` and `region` and its four neighbors are
pushed. The push order matches `stack.extend`/`stack.pop` of the source. -/
def floodLoop (m : Mask) :
    Nat → List (Int × Int) → Finset (Int × Int) → Finset (Int × Int) →
    Option (Finset (Int × Int) × Finset (Int × Int))
  | _, [], visited, region => some (region, visited)
  | 0, _ :: _, _, _ => none
  | fuel + 1, (x, y) :: rest, visited, region =>
    if (x, y) ∈ visited then floodLoop m fuel rest visited region
    else if !whiteAt m x y then floodLoop m fuel rest visited region
    else
      floodLoop m fuel ((x, y - 1) :: (x, y + 1) :: (x - 1, y) :: (x + 1, y) :: rest)
        (insert (x, y) visited) (insert (x, y) region)

/-- Fuel that always suffices for `floodLoop` started on one pixel. -/
def floodFuel (m : Mask) : Nat :=
  5 * (whitePix m).card + 1

/-- `MaskCollisionSystem._flood_fill_portal`: flood fill from `(start_x,
start_y)`, returning the collected region and the enlarged visited set. -/
def flood_fill_portal (m : Mask) (startX startY : Int)
    (visited : Finset (Int × Int)) : Finset (Int × Int) × Finset (Int × Int) :=
  (floodLoop m (floodFuel m) [(startX, startY)] visited ∅).getD (∅, visited)

/-- The row-major scan order of `_detect_portal_regions`:
`for y in range(self.height): for x in range(self.width):`. -/
def scanList (m : Mask) : List (Int × Int) :=
  (List.range m.height).flatMap
    (fun (y : Nat) => (List.range m.width).map (fun (x : Nat) => ((x : Int), (y : Int))))

/-- The scan loop of `MaskCollisionSystem._detect_portal_regions`
(`src/world/mask_collision.py` lines 72-94): walk all pixels row-major,
skip visited ones, flood-fill each unvisited portal-colored pixel, and
append the non-empty region; the dict keys `0, 1, ...` become list
indices. -/
def detectLoop (m : Mask) :
    List (Int × Int) → Finset (Int × Int) → List (Finset (Int × Int)) →
    List (Finset (Int × Int))
  | [], _, regions => regions
  | (x, y) :: rest, visited, regions =>
    if (x, y) ∈ visited then detectLoop m rest visited regions
    else if whiteAt m x y then
      let rv := flood_fill_portal m x y visited
      detectLoop m rest rv.2 (if rv.1 = ∅ then regions else regions ++ [rv.1])
    else detectLoop m rest visited regions

/-- `MaskCollisionSystem._detect_portal_regions`: the portal regions of a
mask, as the list `[region 0, region 1, ...]`. -/
def detect_portal_regions (m : Mask) : List (Finset (Int × Int)) :=
  detectLoop m (scanList m) ∅ []

/-- `MaskCollisionSystem.is_portal` (`src/world/mask_collision.py` lines
36-48): out-of-bounds yields `None`; an opaque-white pixel yields the id of
the first (and in fact only) detected region containing it; otherwise
`None`. -/
def is_portal (m : Mask) (x y : Int) : Option Nat :=
  if !inBounds m x y then none
  else if isOpaqueWhite (getAt m x y) then
    (detect_portal_regions m).findIdx? (fun region => (x, y) ∈ region)
  else none

/-- A `pygame.Rect`: integer origin with non-negative size. -/
structure PyRect where
  x : Int
  y : Int
  w : Nat
  h : Nat
deriving DecidableEq, Repr

/-- `rect.right = x + w`, `rect.bottom = y + h`,
`rect.centerx = x + w // 2`, `rect.centery = y + h // 2`. -/
def PyRect.right (r : PyRect) : Int := r.x + r.w

def PyRect.bottom (r : PyRect) : Int := r.y + r.h

def PyRect.centerx (r : PyRect) : Int := r.x + (r.w / 2 : Nat)

def PyRect.centery (r : PyRect) : Int := r.y + (r.h / 2 : Nat)

/-- The five sample points of `MaskCollisionSystem.rect_collides`
(`src/world/mask_collision.py` lines 54-61): the four corners and the
center. -/
def rectTestPoints (r : PyRect) : List (Int × Int) :=
  [(r.x, r.y), (r.right - 1, r.y), (r.x, r.bottom - 1),
   (r.right - 1, r.bottom - 1), (r.centerx, r.centery)]

/-- `MaskCollisionSystem.rect_collides`: true as soon as one of the five
sample points is not walkable. -/
def rect_collides (m : Mask) (r : PyRect) : Bool :=
  (rectTestPoints r).any (fun p => !is_walkable m p.1 p.2)

/-- `MaskCollisionSystem.rect_in_portal`: the portal id at the rect
center. -/
def rect_in_portal (m : Mask) (r : PyRect) : Option Nat :=
  is_portal m r.centerx r.centery

/-- `MaskCollisionSystem.get_portal_bounds` (`src/world/mask_collision.py`
lines 121-138): the bounding `pygame.Rect` of a region, or `None` for an
unknown id or empty region. -/
def get_portal_bounds (m : Mask) (portalId : Nat) : Option PyRect :=
  match (detect_portal_regions m).get? portalId with
  | none => none
  | some region =>
    if h : region = ∅ then none
    else
      have hne : region.Nonempty := Finset.nonempty_iff_ne_empty.mpr h
      have hne1 : (region.image Prod.fst).Nonempty := hne.image _
      have hne2 : (region.image Prod.snd).Nonempty := hne.image _
      let left := (region.image Prod.fst).min' hne1
      let top := (region.image Prod.snd).min' hne2
      let right := (region.image Prod.fst).max' hne1
      let bottom := (region.image Prod.snd).max' hne2
      some ⟨left, top, (right - left + 1).toNat, (bottom - top + 1).toNat⟩

/-- A 5x1 mask, all walkable black except a transparent (blocked) pixel at
x = 1 that is not among the five sample points of the full-width rect. -/
def gapMask : Mask :=
  ⟨5, 1, fun x _ => if x = 1 then ⟨0, 0, 0, 0⟩ else ⟨0, 0, 0, 255⟩⟩

/-- A second mask agreeing with `gapMask` on the five sample points of
`gapRect` but differing at the non-sampled pixel x = 3. -/
def gapMask' : Mask :=
  ⟨5, 1, fun x _ => if x = 1 || x = 3 then ⟨0, 0, 0, 0⟩ else ⟨0, 0, 0, 255⟩⟩

/-- The full-width rect over `gapMask`. -/
def gapRect : PyRect := ⟨0, 0, 5, 1⟩

/-- C7: `rect_collides` consults exactly the four corners and the center —
it is true iff one of those five pixels is unwalkable; masks agreeing on
the five sample points are indistinguishable to it; and a rect whose five
samples are walkable is reported collision-free even when an interior
pixel (here `(1,0)` of `gapMask`) is blocked. -/
theorem C7_rect_collides_five_samples :
    (∀ (m : Mask) (r : PyRect),
      rect_collides m r = true ↔
        (is_walkable m r.x r.y = false ∨
         is_walkable m (r.right - 1) r.y = false ∨
         is_walkable m r.x (r.bottom - 1) = false ∨
         is_walkable m (r.right - 1) (r.bottom - 1) = false ∨
         is_walkable m r.centerx r.centery = false)) ∧
    (∀ (m m' : Mask) (r : PyRect),
      (∀ p ∈ rectTestPoints r, is_walkable m p.1 p.2 = is_walkable m' p.1 p.2) →
      rect_collides m r = rect_collides m' r) ∧
    (rect_collides gapMask gapRect = false ∧
      gapRect.x ≤ 1 ∧ 1 < gapRect.right ∧ gapRect.y ≤ 0 ∧ 0 < gapRect.bottom ∧
      is_walkable gapMask 1 0 = false) := by
  refine ⟨?_, ?_, by decide⟩
  · intro m r
    simp [rect_collides, rectTestPoints, List.any_cons, List.any_nil,
      Bool.or_eq_true, Bool.not_eq_true']
  · intro m m' r h
    simp only [rect_collides, rectTestPoints, List.any_cons, List.any_nil]
    rw [h (r.x, r.y) (by simp [rectTestPoints]),
      h (r.right - 1, r.y) (by simp [rectTestPoints]),
      h (r.x, r.bottom - 1) (by simp [rectTestPoints]),
      h (r.right - 1, r.bottom - 1) (by simp [rectTestPoints]),
      h (r.centerx, r.centery) (by simp [rectTestPoints])]

theorem C7_rect_collides_five_samples_witness :
    rect_collides gapMask gapRect = rect_collides gapMask' gapRect :=
  C7_rect_collides_five_samples.2.1 gapMask gapMask' gapRect (by decide)

/-- A 1x1 mask consisting of a single opaque pure-white (portal) pixel. -/
def whiteMask : Mask := ⟨1, 1, fun _ _ => ⟨255, 255, 255, 255⟩⟩

/-- C2 counterexample: on a mask with one opaque white pixel, that pixel is
simultaneously walkable (`is_walkable` accepts black OR white) and inside
portal region 0 — the claimed mutual exclusion fails. -/
theorem C2_walkable_portal_counterexample :
    is_walkable whiteMask 0 0 = true ∧ is_portal whiteMask 0 0 = some 0 := by
  decide

/-- The four neighbors pushed by the flood fill, in pop order. -/
def nbrs (p : Int × Int) : List (Int × Int) :=
  [(p.1, p.2 - 1), (p.1, p.2 + 1), (p.1 - 1, p.2), (p.1 + 1, p.2)]

/-- 4-connectivity between pixels. -/
def adjacent (p q : Int × Int) : Prop := q ∈ nbrs p

/-- One step of a path through portal-colored pixels. -/
def WStep (m : Mask) (p q : Int × Int) : Prop :=
  whiteAt m q.1 q.2 = true ∧ adjacent p q

/-- `Reach m p q`: `p` is portal-colored and `q` is 4-connected to `p`
through portal-colored pixels. -/
def Reach (m : Mask) (p q : Int × Int) : Prop :=
  whiteAt m p.1 p.2 = true ∧ Relation.ReflTransGen (WStep m) p q

theorem adjacent_symm {p q : Int × Int} (h : adjacent p q) : adjacent q p := by
  rcases p with ⟨a, b⟩
  rcases q with ⟨c, d⟩
  simp only [adjacent, nbrs, List.mem_cons, List.mem_singleton, Prod.mk.injEq,
    List.not_mem_nil, or_false] at h ⊢
  omega

theorem Reach.refl {m : Mask} {p : Int × Int} (h : whiteAt m p.1 p.2 = true) :
    Reach m p p :=
  ⟨h, Relation.ReflTransGen.refl⟩

theorem Reach.white_end {m : Mask} {p q : Int × Int} (h : Reach m p q) :
    whiteAt m q.1 q.2 = true := by
  rcases h with ⟨hw, hsteps⟩
  induction hsteps with
  | refl => exact hw
  | tail _ hstep _ => exact hstep.1

theorem Reach.tail {m : Mask} {p q r : Int × Int} (h : Reach m p q)
    (hq : WStep m q r) : Reach m p r :=
  ⟨h.1, h.2.tail hq⟩

theorem Reach.trans {m : Mask} {p q r : Int × Int} (h1 : Reach m p q)
    (h2 : Reach m q r) : Reach m p r :=
  ⟨h1.1, h1.2.trans h2.2⟩

theorem Reach.symm {m : Mask} {p q : Int × Int} (h : Reach m p q) :
    Reach m q p := by
  rcases h with ⟨hw, hsteps⟩
  induction hsteps with
  | refl => exact ⟨hw, Relation.ReflTransGen.refl⟩
  | @tail b c hpre hstep ih =>
      refine Reach.trans ⟨hstep.1, ?_⟩ ih
      have hbw : whiteAt m b.1 b.2 = true := Reach.white_end ⟨hw, hpre⟩
      exact Relation.ReflTransGen.single ⟨hbw, adjacent_symm hstep.2⟩

theorem mem_whitePix {m : Mask} {p : Int × Int} :
    p ∈ whitePix m ↔ whiteAt m p.1 p.2 = true := by
  constructor
  · intro h
    exact (Finset.mem_filter.mp h).2
  · intro h
    refine Finset.mem_filter.mpr ⟨?_, h⟩
    have hb : inBounds m p.1 p.2 = true := by
      have h' : inBounds m p.1 p.2 = true ∧ isOpaqueWhite (getAt m p.1 p.2) = true := by
        simpa [whiteAt] using h
      exact h'.1
    unfold inBounds at hb
    simp only [Bool.not_eq_true', Bool.or_eq_false_iff, decide_eq_false_iff_not,
      not_lt, not_le] at hb
    refine Finset.mem_image.mpr ⟨(p.1.toNat, p.2.toNat), ?_, ?_⟩
    · refine Finset.mem_product.mpr ⟨?_, ?_⟩
      · refine Finset.mem_range.mpr ?_
        omega
      · refine Finset.mem_range.mpr ?_
        omega
    · have h1 : (p.1.toNat : Int) = p.1 := Int.toNat_of_nonneg (by omega)
      have h2 : (p.2.toNat : Int) = p.2 := Int.toNat_of_nonneg (by omega)
      simp [h1, h2]

/-- A visited set closed under stepping to adjacent portal-colored pixels
(flood fills never escape such a set, and always complete it). -/
def Closed (m : Mask) (v : Finset (Int × Int)) : Prop :=
  ∀ p ∈ v, ∀ q, adjacent p q → whiteAt m q.1 q.2 = true → q ∈ v

/-- Combined postconditions of the flood-fill worklist loop. -/
theorem floodLoop_spec (m : Mask) :
    ∀ (f : Nat) (s : List (Int × Int)) (v r R V : Finset (Int × Int)),
      floodLoop m f s v r = some (R, V) →
      v ⊆ V ∧ r ⊆ R ∧ (∀ p, p ∈ V → p ∈ v ∨ p ∈ R) ∧
      (∀ p, p ∈ R → p ∈ r ∨ (p ∈ V ∧ whiteAt m p.1 p.2 = true)) ∧
      (∀ p ∈ s, whiteAt m p.1 p.2 = true → p ∈ V) ∧
      (∀ p, p ∈ R → p ∉ r →
        ∀ q, adjacent p q → whiteAt m q.1 q.2 = true → q ∈ V) ∧
      (∀ T : Int × Int → Prop,
        (∀ p ∈ s, whiteAt m p.1 p.2 = true → T p) →
        (∀ p q, T p → adjacent p q → whiteAt m q.1 q.2 = true → T q) →
        ∀ p, p ∈ R → p ∈ r ∨ T p) := by
  intro f
  induction f with
  | zero =>
    intro s v r R V heq
    cases s with
    | nil =>
      simp only [floodLoop, Option.some.injEq, Prod.mk.injEq] at heq
      obtain ⟨hR, hV⟩ := heq
      subst hR; subst hV
      exact ⟨Finset.Subset.refl _, Finset.Subset.refl _, fun p hp => Or.inl hp,
        fun p hp => Or.inl hp, fun p hp => by simp at hp,
        fun p hp hnp => absurd hp hnp, fun T _ _ p hp => Or.inl hp⟩
    | cons hd tl => simp [floodLoop] at heq
  | succ f ih =>
    intro s v r R V heq
    cases s with
    | nil =>
      simp only [floodLoop, Option.some.injEq, Prod.mk.injEq] at heq
      obtain ⟨hR, hV⟩ := heq
      subst hR; subst hV
      exact ⟨Finset.Subset.refl _, Finset.Subset.refl _, fun p hp => Or.inl hp,
        fun p hp => Or.inl hp, fun p hp => by simp at hp,
        fun p hp hnp => absurd hp hnp, fun T _ _ p hp => Or.inl hp⟩
    | cons hd tl =>
      obtain ⟨x, y⟩ := hd
      by_cases h1 : (x, y) ∈ v
      · rw [show floodLoop m (f + 1) ((x, y) :: tl) v r = floodLoop m f tl v r from by
          simp [floodLoop, h1]] at heq
        obtain ⟨hvV, hrR, hVvR, hRrV, hstk, hclo, hbnd⟩ := ih tl v r R V heq
        refine ⟨hvV, hrR, hVvR, hRrV, ?_, hclo, ?_⟩
        · intro p hp hw
          rcases List.mem_cons.mp hp with hph | hpt
          · subst hph; exact hvV h1
          · exact hstk p hpt hw
        · intro T hsT hclT p hp
          exact hbnd T (fun q hq hw => hsT q (List.mem_cons_of_mem _ hq) hw) hclT p hp
      · by_cases h2 : whiteAt m x y = true
        · -- process branch
          rw [show floodLoop m (f + 1) ((x, y) :: tl) v r =
              floodLoop m f ((x, y - 1) :: (x, y + 1) :: (x - 1, y) :: (x + 1, y) :: tl)
                (insert (x, y) v) (insert (x, y) r) from by
            simp [floodLoop, h1, h2]] at heq
          obtain ⟨hvV, hrR, hVvR, hRrV, hstk, hclo, hbnd⟩ := ih _ _ _ R V heq
          have hpV : (x, y) ∈ V := hvV (Finset.mem_insert_self _ _)
          have hpR : (x, y) ∈ R := hrR (Finset.mem_insert_self _ _)
          refine ⟨?_, ?_, ?_, ?_, ?_, ?_, ?_⟩
          · exact fun p hp => hvV (Finset.mem_insert_of_mem hp)
          · exact fun p hp => hrR (Finset.mem_insert_of_mem hp)
          · intro p hp
            rcases hVvR p hp with hpv | hpr
            · rcases Finset.mem_insert.mp hpv with hpe | hpv'
              · exact Or.inr (hpe ▸ hpR)
              · exact Or.inl hpv'
            · exact Or.inr hpr
          · intro p hp
            rcases hRrV p hp with hpr | hpvw
            · rcases Finset.mem_insert.mp hpr with hpe | hpr'
              · subst hpe; exact Or.inr ⟨hpV, h2⟩
              · exact Or.inl hpr'
            · exact Or.inr hpvw
          · intro p hp hw
            rcases List.mem_cons.mp hp with hph | hpt
            · subst hph; exact hpV
            · exact hstk p (by simp [hpt]) hw
          · intro p hp hnp q hadj hqw
            by_cases hpe : p = (x, y)
            · subst hpe
              have hq : q ∈ nbrs (x, y) := hadj
              simp only [nbrs, List.mem_cons, List.not_mem_nil, or_false] at hq
              rcases hq with hq | hq | hq | hq <;> subst hq <;>
                exact hstk _ (by simp) hqw
            · exact hclo p hp (fun hc => hpe (by
                rcases Finset.mem_insert.mp hc with h | h
                · exact h
                · exact absurd h hnp)) q hadj hqw
          · intro T hsT hclT p hp
            have hTp : T (x, y) := hsT (x, y) (List.mem_cons_self _ _) h2
            have hres := hbnd T ?_ hclT p hp
            · rcases hres with hpr | hTq
              · rcases Finset.mem_insert.mp hpr with hpe | hpr'
                · exact Or.inr (hpe ▸ hTp)
                · exact Or.inl hpr'
              · exact Or.inr hTq
            · intro q hq hqw
              simp only [List.mem_cons] at hq
              rcases hq with hq | hq | hq | hq | hq
              · exact hclT (x, y) q hTp (by simp [adjacent, nbrs, hq]) hqw
              · exact hclT (x, y) q hTp (by simp [adjacent, nbrs, hq]) hqw
              · exact hclT (x, y) q hTp (by simp [adjacent, nbrs, hq]) hqw
              · exact hclT (x, y) q hTp (by simp [adjacent, nbrs, hq]) hqw
              · exact hsT q (List.mem_cons_of_mem _ hq) hqw
        · -- not white: skip
          rw [show floodLoop m (f + 1) ((x, y) :: tl) v r = floodLoop m f tl v r from by
            simp [floodLoop, h1, h2]] at heq
          obtain ⟨hvV, hrR, hVvR, hRrV, hstk, hclo, hbnd⟩ := ih tl v r R V heq
          refine ⟨hvV, hrR, hVvR, hRrV, ?_, hclo, ?_⟩
          · intro p hp hw
            rcases List.mem_cons.mp hp with hph | hpt
            · subst hph; exact absurd hw h2
            · exact hstk p hpt hw
          · intro T hsT hclT p hp
            exact hbnd T (fun q hq hw => hsT q (List.mem_cons_of_mem _ hq) hw) hclT p hp

/-- The loop terminates before fuel `5 * |unvisited white| + |stack|` runs
out: every iteration pops one entry, and a processed pixel removes one
unvisited white pixel while pushing four entries. -/
theorem floodLoop_isSome (m : Mask) :
    ∀ (f : Nat) (s : List (Int × Int)) (v r : Finset (Int × Int)),
      5 * ((whitePix m) \ v).card + s.length ≤ f →
      (floodLoop m f s v r).isSome = true := by
  intro f
  induction f with
  | zero =>
    intro s v r hle
    cases s with
    | nil => simp [floodLoop]
    | cons hd tl => simp [List.length_cons] at hle
  | succ f ih =>
    intro s v r hle
    cases s with
    | nil => simp [floodLoop]
    | cons hd tl =>
      obtain ⟨x, y⟩ := hd
      simp only [List.length_cons] at hle
      by_cases h1 : (x, y) ∈ v
      · rw [show floodLoop m (f + 1) ((x, y) :: tl) v r = floodLoop m f tl v r from by
          simp [floodLoop, h1]]
        exact ih tl v r (by omega)
      · by_cases h2 : whiteAt m x y = true
        · rw [show floodLoop m (f + 1) ((x, y) :: tl) v r =
              floodLoop m f ((x, y - 1) :: (x, y + 1) :: (x - 1, y) :: (x + 1, y) :: tl)
                (insert (x, y) v) (insert (x, y) r) from by
            simp [floodLoop, h1, h2]]
          apply ih
          have hmem : (x, y) ∈ (whitePix m) \ v :=
            Finset.mem_sdiff.mpr ⟨mem_whitePix.mpr h2, h1⟩
          have hins : (whitePix m) \ insert (x, y) v = ((whitePix m) \ v).erase (x, y) := by
            ext q
            simp only [Finset.mem_sdiff, Finset.mem_insert, Finset.mem_erase]
            tauto
          have hcard : ((whitePix m) \ insert (x, y) v).card
              = ((whitePix m) \ v).card - 1 := by
            rw [hins, Finset.card_erase_of_mem hmem]
          have hpos : 0 < ((whitePix m) \ v).card := Finset.card_pos.mpr ⟨_, hmem⟩
          simp only [List.length_cons]
          omega
        · rw [show floodLoop m (f + 1) ((x, y) :: tl) v r = floodLoop m f tl v r from by
            simp [floodLoop, h1, h2]]
          exact ih tl v r (by omega)

/-- Reachable pixels never lie in a closed visited set missing the start. -/
theorem reach_not_in_closed {m : Mask} {v : Finset (Int × Int)}
    (hcl : Closed m v) {s : Int × Int} (hs : s ∉ v) (hsw : whiteAt m s.1 s.2 = true) :
    ∀ q, Reach m s q → q ∉ v := by
  intro q hq
  rcases hq with ⟨_, hsteps⟩
  induction hsteps with
  | refl => exact hs
  | @tail b c hpre hstep ih =>
    intro hc
    have hbw : whiteAt m b.1 b.2 = true := Reach.white_end ⟨hsw, hpre⟩
    exact ih (hcl c hc b (adjacent_symm hstep.2) hbw)

/-- Correctness of `_flood_fill_portal`: started on an unvisited
portal-colored pixel with a closed visited set, it returns exactly the
4-connected portal region of the start, and marks precisely that region
as newly visited. -/
theorem flood_fill_portal_spec (m : Mask) (s : Int × Int)
    (v : Finset (Int × Int)) (hsw : whiteAt m s.1 s.2 = true) (hs : s ∉ v)
    (hcl : Closed m v) :
    (∀ q, q ∈ (flood_fill_portal m s.1 s.2 v).1 ↔ Reach m s q) ∧
    (∀ q, q ∈ (flood_fill_portal m s.1 s.2 v).2 ↔
      q ∈ v ∨ q ∈ (flood_fill_portal m s.1 s.2 v).1) := by
  have hsome := floodLoop_isSome m (floodFuel m) [(s.1, s.2)] v ∅ (by
    have hcard : ((whitePix m) \ v).card ≤ (whitePix m).card :=
      Finset.card_le_card (Finset.sdiff_subset)
    simp only [floodFuel, List.length_cons, List.length_nil]
    omega)
  obtain ⟨out, hout⟩ := Option.isSome_iff_exists.mp hsome
  obtain ⟨R, V⟩ := out
  have hdef : flood_fill_portal m s.1 s.2 v = (R, V) := by
    unfold flood_fill_portal
    rw [hout]
    rfl
  obtain ⟨hvV, hrR, hVvR, hRrV, hstk, hclo, hbnd⟩ :=
    floodLoop_spec m (floodFuel m) [(s.1, s.2)] v ∅ R V hout
  have hsV : s ∈ V := by
    have := hstk (s.1, s.2) (by simp) hsw
    simpa using this
  have hsR : s ∈ R := by
    rcases hVvR s hsV with h | h
    · exact absurd h hs
    · exact h
  have hRwhite : ∀ p, p ∈ R → whiteAt m p.1 p.2 = true := by
    intro p hp
    rcases hRrV p hp with h | h
    · simp at h
    · exact h.2
  have hRV : ∀ p, p ∈ R → p ∈ V := by
    intro p hp
    rcases hRrV p hp with h | h
    · simp at h
    · exact h.1
  -- everything in R is reachable from s
  have hRreach : ∀ p, p ∈ R → Reach m s p := by
    intro p hp
    have := hbnd (fun q => Reach m s q) ?_ ?_ p hp
    · rcases this with h | h
      · simp at h
      · exact h
    · intro q hq hqw
      simp only [List.mem_cons, List.not_mem_nil, or_false] at hq
      subst hq
      exact Reach.refl hsw
    · intro p' q' hp' hadj hqw
      exact hp'.tail ⟨hqw, hadj⟩
  -- nothing reachable from s is in v
  have hreachv : ∀ q, Reach m s q → q ∉ v := reach_not_in_closed hcl hs hsw
  -- everything reachable from s is in R
  have hreachR : ∀ q, Reach m s q → q ∈ R := by
    intro q hq
    rcases hq with ⟨_, hsteps⟩
    induction hsteps with
    | refl => exact hsR
    | @tail b c hpre hstep ih =>
      have hbR : b ∈ R := ih
      have hcV : c ∈ V := hclo b hbR (by simp) c hstep.2 hstep.1
      rcases hVvR c hcV with h | h
      · exact absurd h (hreachv c ⟨hsw, hpre.tail hstep⟩)
      · exact h
  rw [hdef]
  constructor
  · intro q
    exact ⟨hRreach q, hreachR q⟩
  · intro q
    constructor
    · intro hqV
      rcases hVvR q hqV with h | h
      · exact Or.inl h
      · exact Or.inr h
    · intro hq
      rcases hq with h | h
      · exact hvV h
      · exact hRV q h

/-- Row-major index of a pixel: the position at which the scan of
`_detect_portal_regions` encounters it. -/
def rmIdx (m : Mask) (p : Int × Int) : Int :=
  p.2 * m.width + p.1

/-- The scan-order minimum of a region: the row-major index of its
first-encountered pixel. -/
def regionScanMin (m : Mask) (R : Finset (Int × Int)) : WithTop Int :=
  (R.image (rmIdx m)).min

theorem mem_scanList {m : Mask} {p : Int × Int} :
    p ∈ scanList m ↔ 0 ≤ p.1 ∧ p.1 < m.width ∧ 0 ≤ p.2 ∧ p.2 < m.height := by
  obtain ⟨x, y⟩ := p
  constructor
  · intro h
    rcases List.mem_flatMap.mp h with ⟨b, hb, hmem⟩
    rcases List.mem_map.mp hmem with ⟨a, ha, heq⟩
    have ha' : a < m.width := List.mem_range.mp ha
    have hb' : b < m.height := List.mem_range.mp hb
    rw [← heq]
    exact ⟨Int.natCast_nonneg a, by simpa using ha',
      Int.natCast_nonneg b, by simpa using hb'⟩
  · rintro ⟨hx0, hxw, hy0, hyh⟩
    refine List.mem_flatMap.mpr ⟨y.toNat, List.mem_range.mpr (by omega), ?_⟩
    refine List.mem_map.mpr ⟨x.toNat, List.mem_range.mpr (by omega), ?_⟩
    have h1 : (x.toNat : Int) = x := Int.toNat_of_nonneg hx0
    have h2 : (y.toNat : Int) = y := Int.toNat_of_nonneg hy0
    rw [h1, h2]

theorem whiteAt_mem_scanList {m : Mask} {p : Int × Int}
    (h : whiteAt m p.1 p.2 = true) : p ∈ scanList m := by
  have hb : inBounds m p.1 p.2 = true := by
    have h' : inBounds m p.1 p.2 = true ∧ isOpaqueWhite (getAt m p.1 p.2) = true := by
      simpa [whiteAt] using h
    exact h'.1
  unfold inBounds at hb
  simp only [Bool.not_eq_true', Bool.or_eq_false_iff, decide_eq_false_iff_not,
    not_lt, not_le] at hb
  exact mem_scanList.mpr ⟨by omega, by omega, by omega, by omega⟩

theorem scanList_pairwise (m : Mask) :
    (scanList m).Pairwise (fun p q => rmIdx m p < rmIdx m q) := by
  refine List.pairwise_flatMap.mpr ⟨?_, ?_⟩
  · intro b _
    refine List.pairwise_map.mpr ?_
    refine (List.pairwise_lt_range _).imp ?_
    intro a a' haa'
    have hc : (a : Int) < a' := by exact_mod_cast haa'
    simp only [rmIdx]
    omega
  · refine (List.pairwise_lt_range _).imp ?_
    intro y1 y2 hy p hp q hq
    obtain ⟨x1, hx1, rfl⟩ := List.mem_map.mp hp
    obtain ⟨x2, _, rfl⟩ := List.mem_map.mp hq
    simp only [rmIdx]
    have hx1' : (x1 : Int) < (m.width : Int) := by
      exact_mod_cast List.mem_range.mp hx1
    have hx2' : (0 : Int) ≤ (x2 : Int) := Int.natCast_nonneg _
    have hy' : (y1 : Int) + 1 ≤ (y2 : Int) := by exact_mod_cast hy
    have h1 : ((y1 : Int) + 1) * (m.width : Int) ≤ (y2 : Int) * (m.width : Int) :=
      mul_le_mul_of_nonneg_right hy' (Int.natCast_nonneg _)
    have h1' : (y1 : Int) * (m.width : Int) + (m.width : Int)
        ≤ (y2 : Int) * (m.width : Int) := by
      calc (y1 : Int) * (m.width : Int) + (m.width : Int)
          = ((y1 : Int) + 1) * (m.width : Int) := by ring
        _ ≤ (y2 : Int) * (m.width : Int) := h1
    linarith

theorem regionScanMin_eq {m : Mask} {R : Finset (Int × Int)} {t : Int × Int}
    (ht : t ∈ R) (hmin : ∀ p ∈ R, rmIdx m t ≤ rmIdx m p) :
    regionScanMin m R = (rmIdx m t : WithTop Int) := by
  apply le_antisymm
  · exact Finset.min_le (Finset.mem_image_of_mem _ ht)
  · apply Finset.le_min
    intro b hb
    rcases Finset.mem_image.mp hb with ⟨p, hp, rfl⟩
    exact_mod_cast hmin p hp

/-- The row-major scan of `_detect_portal_regions` keeps these invariants:
visited pixels are exactly the pixels of the accumulated regions, every
region is a maximal 4-connected portal component, regions are disjoint, and
their first-encounter indices increase; the final region list therefore
partitions the portal-colored pixels into components, listed in row-major
first-encounter order. -/
theorem detectLoop_spec (m : Mask) :
    ∀ (todo : List (Int × Int)) (visited : Finset (Int × Int))
      (regions : List (Finset (Int × Int))),
      (∀ p ∈ visited, whiteAt m p.1 p.2 = true) →
      Closed m visited →
      (∀ p : Int × Int, p ∈ visited ↔ ∃ R ∈ regions, p ∈ R) →
      (∀ p : Int × Int, whiteAt m p.1 p.2 = true → p ∉ visited → p ∈ todo) →
      todo.Pairwise (fun p q => rmIdx m p < rmIdx m q) →
      (∀ R ∈ regions, ∀ p ∈ R, ∀ q, q ∈ R ↔ Reach m p q) →
      (∀ R ∈ regions, ∃ t ∈ R, (∀ p ∈ R, rmIdx m t ≤ rmIdx m p) ∧
        ∀ q ∈ todo, rmIdx m t < rmIdx m q) →
      regions.Pairwise (fun R S => regionScanMin m R < regionScanMin m S) →
      regions.Pairwise (fun R S => ∀ p, p ∈ R → p ∉ S) →
      ((∀ R ∈ detectLoop m todo visited regions, ∀ p ∈ R,
          whiteAt m p.1 p.2 = true) ∧
       (∀ p : Int × Int, whiteAt m p.1 p.2 = true →
          ∃ R ∈ detectLoop m todo visited regions, p ∈ R) ∧
       (∀ R ∈ detectLoop m todo visited regions, ∀ p ∈ R, ∀ q,
          q ∈ R ↔ Reach m p q) ∧
       (detectLoop m todo visited regions).Pairwise
         (fun R S => regionScanMin m R < regionScanMin m S) ∧
       (detectLoop m todo visited regions).Pairwise
         (fun R S => ∀ p, p ∈ R → p ∉ S)) := by
  intro todo
  induction todo with
  | nil =>
    intro visited regions hvw _hcl hvr hcov _htodo hcomp _hmin hord hdisj
    rw [show detectLoop m [] visited regions = regions from rfl]
    refine ⟨?_, ?_, hcomp, hord, hdisj⟩
    · intro R hR p hp
      exact hvw p (hvr p |>.mpr ⟨R, hR, hp⟩)
    · intro p hpw
      by_cases hpv : p ∈ visited
      · exact (hvr p).mp hpv
      · exact absurd (hcov p hpw hpv) (List.not_mem_nil p)
  | cons hd rest ih =>
    intro visited regions hvw hcl hvr hcov htodo hcomp hmin hord hdisj
    obtain ⟨x, y⟩ := hd
    have htodo' := List.pairwise_cons.mp htodo
    by_cases h1 : (x, y) ∈ visited
    · rw [show detectLoop m ((x, y) :: rest) visited regions
          = detectLoop m rest visited regions from by simp [detectLoop, h1]]
      refine ih visited regions hvw hcl hvr ?_ htodo'.2 hcomp ?_ hord hdisj
      · intro p hpw hpv
        rcases List.mem_cons.mp (hcov p hpw hpv) with hpe | hpr
        · exact absurd (hpe ▸ h1) hpv
        · exact hpr
      · intro R hR
        obtain ⟨t, ht, htm, htlt⟩ := hmin R hR
        exact ⟨t, ht, htm, fun q hq => htlt q (List.mem_cons_of_mem _ hq)⟩
    · by_cases h2 : whiteAt m x y = true
      · -- trigger a flood fill
        obtain ⟨hRiff, hViff⟩ := flood_fill_portal_spec m (x, y) visited h2 h1 hcl
        set rv := flood_fill_portal m x y visited with hrv
        have hxyR : (x, y) ∈ rv.1 := (hRiff (x, y)).mpr (Reach.refl h2)
        have hRwhite : ∀ p ∈ rv.1, whiteAt m p.1 p.2 = true := by
          intro p hp
          exact Reach.white_end ((hRiff p).mp hp)
        have hRnv : ∀ p ∈ rv.1, p ∉ visited := by
          intro p hp
          exact reach_not_in_closed hcl h1 h2 p ((hRiff p).mp hp)
        have hne : ¬ rv.1 = ∅ := by
          intro hc
          rw [hc] at hxyR
          simp at hxyR
        have hstep : detectLoop m ((x, y) :: rest) visited regions
            = detectLoop m rest rv.2 (regions ++ [rv.1]) := by
          simp [detectLoop, h1, h2, ← hrv, hne]
        rw [hstep]
        -- new-region scan minimum
        have hRmin : ∀ p ∈ rv.1, rmIdx m (x, y) ≤ rmIdx m p := by
          intro p hp
          rcases List.mem_cons.mp
              (hcov p (hRwhite p hp) (hRnv p hp)) with hpe | hpr
          · rw [hpe]
          · exact le_of_lt (htodo'.1 p hpr)
        refine ih rv.2 (regions ++ [rv.1]) ?_ ?_ ?_ ?_ htodo'.2 ?_ ?_ ?_ ?_
        · intro p hp
          rcases (hViff p).mp hp with h | h
          · exact hvw p h
          · exact hRwhite p h
        · intro p hp q hadj hqw
          rcases (hViff p).mp hp with h | h
          · exact (hViff q).mpr (Or.inl (hcl p h q hadj hqw))
          · exact (hViff q).mpr (Or.inr ((hRiff q).mpr (((hRiff p).mp h).tail ⟨hqw, hadj⟩)))
        · intro p
          rw [hViff p, hvr p]
          constructor
          · rintro (⟨R, hR, hp⟩ | hp)
            · exact ⟨R, List.mem_append_left _ hR, hp⟩
            · exact ⟨rv.1, List.mem_append_right _ (List.mem_singleton_self _), hp⟩
          · rintro ⟨R, hR, hp⟩
            rcases List.mem_append.mp hR with h | h
            · exact Or.inl ⟨R, h, hp⟩
            · rw [List.mem_singleton.mp h] at hp
              exact Or.inr hp
        · intro p hpw hpv
          have hpvold : p ∉ visited := fun hc => hpv ((hViff p).mpr (Or.inl hc))
          rcases List.mem_cons.mp (hcov p hpw hpvold) with hpe | hpr
          · exact absurd ((hViff p).mpr (Or.inr (hpe ▸ hxyR))) hpv
          · exact hpr
        · intro R hR p hp q
          rcases List.mem_append.mp hR with h | h
          · exact hcomp R h p hp q
          · rw [List.mem_singleton.mp h] at hp ⊢
            rw [hRiff q]
            have hxp : Reach m (x, y) p := (hRiff p).mp hp
            constructor
            · intro hq
              exact (hxp.symm).trans hq
            · intro hq
              exact hxp.trans hq
        · intro R hR
          rcases List.mem_append.mp hR with h | h
          · obtain ⟨t, ht, htm, htlt⟩ := hmin R h
            exact ⟨t, ht, htm, fun q hq => htlt q (List.mem_cons_of_mem _ hq)⟩
          · rw [List.mem_singleton.mp h]
            exact ⟨(x, y), hxyR, hRmin, htodo'.1⟩
        · rw [List.pairwise_append]
          refine ⟨hord, List.pairwise_singleton _ _, ?_⟩
          intro R hR S hS
          rw [List.mem_singleton.mp hS]
          obtain ⟨t, ht, htm, htlt⟩ := hmin R hR
          rw [regionScanMin_eq ht htm, regionScanMin_eq hxyR hRmin]
          exact_mod_cast htlt (x, y) (List.mem_cons_self _ _)
        · rw [List.pairwise_append]
          refine ⟨hdisj, List.pairwise_singleton _ _, ?_⟩
          intro R hR S hS p hpR
          rw [List.mem_singleton.mp hS]
          intro hpS
          exact hRnv p hpS ((hvr p).mpr ⟨R, hR, hpR⟩)
      · rw [show detectLoop m ((x, y) :: rest) visited regions
            = detectLoop m rest visited regions from by simp [detectLoop, h1, h2]]
        refine ih visited regions hvw hcl hvr ?_ htodo'.2 hcomp ?_ hord hdisj
        · intro p hpw hpv
          rcases List.mem_cons.mp (hcov p hpw hpv) with hpe | hpr
          · rw [hpe] at hpw
            exact absurd hpw h2
          · exact hpr
        · intro R hR
          obtain ⟨t, ht, htm, htlt⟩ := hmin R hR
          exact ⟨t, ht, htm, fun q hq => htlt q (List.mem_cons_of_mem _ hq)⟩

/-- Two masks carrying the same raster data: equal dimensions and equal
pixels at every in-bounds coordinate. -/
def MaskSameData (m m' : Mask) : Prop :=
  m.width = m'.width ∧ m.height = m'.height ∧
  ∀ x y : Nat, x < m.width → y < m.height → m.pix x y = m'.pix x y

theorem whiteAt_congr {m m' : Mask} (h : MaskSameData m m') :
    ∀ x y : Int, whiteAt m x y = whiteAt m' x y := by
  obtain ⟨hw, hh, hp⟩ := h
  intro x y
  by_cases hb : inBounds m x y = true
  · have hb' : inBounds m' x y = true := by
      unfold inBounds at hb ⊢
      rw [← hw, ← hh]
      exact hb
    have hbb := hb
    unfold inBounds at hbb
    simp only [Bool.not_eq_true', Bool.or_eq_false_iff, decide_eq_false_iff_not,
      not_lt, not_le] at hbb
    have hpix : getAt m x y = getAt m' x y := by
      unfold getAt
      exact hp x.toNat y.toNat (by omega) (by omega)
    unfold whiteAt
    rw [hb, hb', hpix]
  · have hb' : inBounds m' x y = false := by
      have : inBounds m x y = false := by
        cases hc : inBounds m x y
        · rfl
        · exact absurd hc hb
      unfold inBounds at this ⊢
      rw [← hw, ← hh]
      exact this
    unfold whiteAt
    rw [hb', Bool.eq_false_iff.mpr hb]
    simp

theorem whitePix_congr {m m' : Mask} (h : MaskSameData m m') :
    whitePix m = whitePix m' := by
  unfold whitePix
  rw [h.1, h.2.1]
  apply Finset.filter_congr
  intro p _
  rw [whiteAt_congr h p.1 p.2]

theorem floodLoop_congr {m m' : Mask} (h : MaskSameData m m') :
    ∀ (f : Nat) (s : List (Int × Int)) (v r : Finset (Int × Int)),
      floodLoop m f s v r = floodLoop m' f s v r := by
  intro f
  induction f with
  | zero =>
    intro s v r
    cases s with
    | nil => rfl
    | cons hd tl => rfl
  | succ f ih =>
    intro s v r
    cases s with
    | nil => rfl
    | cons hd tl =>
      obtain ⟨x, y⟩ := hd
      show (if (x, y) ∈ v then floodLoop m f tl v r
        else if !whiteAt m x y then floodLoop m f tl v r
        else floodLoop m f ((x, y - 1) :: (x, y + 1) :: (x - 1, y) :: (x + 1, y) :: tl)
          (insert (x, y) v) (insert (x, y) r)) =
        (if (x, y) ∈ v then floodLoop m' f tl v r
        else if !whiteAt m' x y then floodLoop m' f tl v r
        else floodLoop m' f ((x, y - 1) :: (x, y + 1) :: (x - 1, y) :: (x + 1, y) :: tl)
          (insert (x, y) v) (insert (x, y) r))
      rw [whiteAt_congr h x y]
      by_cases h1 : (x, y) ∈ v
      · rw [if_pos h1, if_pos h1, ih]
      · rw [if_neg h1, if_neg h1]
        by_cases h2 : !whiteAt m' x y
        · rw [if_pos h2, if_pos h2, ih]
        · rw [if_neg h2, if_neg h2, ih]

theorem flood_fill_portal_congr {m m' : Mask} (h : MaskSameData m m') :
    ∀ (x y : Int) (v : Finset (Int × Int)),
      flood_fill_portal m x y v = flood_fill_portal m' x y v := by
  intro x y v
  unfold flood_fill_portal floodFuel
  rw [whitePix_congr h, floodLoop_congr h]

theorem detectLoop_congr {m m' : Mask} (h : MaskSameData m m') :
    ∀ (todo : List (Int × Int)) (v : Finset (Int × Int))
      (regions : List (Finset (Int × Int))),
      detectLoop m todo v regions = detectLoop m' todo v regions := by
  intro todo
  induction todo with
  | nil => intro v regions; rfl
  | cons hd tl ih =>
    intro v regions
    obtain ⟨x, y⟩ := hd
    show (if (x, y) ∈ v then detectLoop m tl v regions
      else if whiteAt m x y then
        detectLoop m tl (flood_fill_portal m x y v).2
          (if (flood_fill_portal m x y v).1 = ∅ then regions
           else regions ++ [(flood_fill_portal m x y v).1])
      else detectLoop m tl v regions) =
      (if (x, y) ∈ v then detectLoop m' tl v regions
      else if whiteAt m' x y then
        detectLoop m' tl (flood_fill_portal m' x y v).2
          (if (flood_fill_portal m' x y v).1 = ∅ then regions
           else regions ++ [(flood_fill_portal m' x y v).1])
      else detectLoop m' tl v regions)
    rw [whiteAt_congr h x y, flood_fill_portal_congr h x y v]
    by_cases h1 : (x, y) ∈ v
    · rw [if_pos h1, if_pos h1, ih]
    · rw [if_neg h1, if_neg h1]
      by_cases h2 : whiteAt m' x y
      · rw [if_pos h2, if_pos h2, ih]
      · rw [if_neg h2, if_neg h2, ih]

theorem detect_portal_regions_congr {m m' : Mask} (h : MaskSameData m m') :
    detect_portal_regions m = detect_portal_regions m' := by
  unfold detect_portal_regions scanList
  rw [h.1, h.2.1, detectLoop_congr h]

/-- C6: `_detect_portal_regions` partitions exactly the opaque pure-white
pixels into maximal 4-connected regions — regions hold only portal pixels,
every portal pixel lies in some region, distinct regions are disjoint,
region membership coincides with 4-connectivity through portal pixels,
region ids (list indices 0..n-1, the dict keys of the source) are assigned
in row-major order of first encounter, and re-running discovery on the same
raster data yields the same region list. -/
theorem C6_portal_region_partition (m : Mask) :
    (∀ R ∈ detect_portal_regions m, ∀ p ∈ R, whiteAt m p.1 p.2 = true) ∧
    (∀ p : Int × Int, whiteAt m p.1 p.2 = true →
      ∃ R ∈ detect_portal_regions m, p ∈ R) ∧
    (detect_portal_regions m).Pairwise (fun R S => ∀ p, p ∈ R → p ∉ S) ∧
    (∀ R ∈ detect_portal_regions m, ∀ p ∈ R, ∀ q, q ∈ R ↔ Reach m p q) ∧
    (detect_portal_regions m).Pairwise
      (fun R S => regionScanMin m R < regionScanMin m S) ∧
    (∀ m' : Mask, MaskSameData m m' →
      detect_portal_regions m = detect_portal_regions m') := by
  obtain ⟨c1, c2, c3, c4, c5⟩ :=
    detectLoop_spec m (scanList m) ∅ []
      (by intro p hp; exact absurd hp (Finset.not_mem_empty p))
      (by intro p hp; exact absurd hp (Finset.not_mem_empty p))
      (by intro p; simp)
      (fun p hw _ => whiteAt_mem_scanList hw)
      (scanList_pairwise m)
      (by intro R hR; exact absurd hR (List.not_mem_nil R))
      (by intro R hR; exact absurd hR (List.not_mem_nil R))
      List.Pairwise.nil
      List.Pairwise.nil
  exact ⟨c1, c2, c5, c3, c4, fun m' h => detect_portal_regions_congr h⟩

theorem C6_portal_region_partition_witness :
    ∃ R ∈ detect_portal_regions whiteMask, ((0 : Int), (0 : Int)) ∈ R :=
  (C6_portal_region_partition whiteMask).2.1 (0, 0) (by decide)

theorem white_is_walkable {m : Mask} {x y : Int}
    (h : whiteAt m x y = true) : is_walkable m x y = true := by
  have h' : inBounds m x y = true ∧ isOpaqueWhite (getAt m x y) = true := by
    simpa [whiteAt] using h
  obtain ⟨hb, hwht⟩ := h'
  have ha : 0 < (getAt m x y).a ∧ (getAt m x y).r = 255 ∧
      (getAt m x y).g = 255 ∧ (getAt m x y).b = 255 := by
    simpa [isOpaqueWhite, and_assoc] using hwht
  simp [is_walkable, hb, ha.1, ha.2.1, ha.2.2.1, ha.2.2.2]

/-- C2 (amended): a pixel with a portal id is portal-colored and therefore
ALSO walkable (`is_walkable` accepts black or white); the mutual exclusion
that actually holds is between blocked and portal: no pixel is
simultaneously unwalkable and a portal, and `is_portal` answers a portal id
exactly on the opaque pure-white pixels. Each pixel is thus exactly one of
blocked, walkable-non-portal, or walkable-portal. -/
theorem C2_portal_pixels_walkable_amended (m : Mask) (x y : Int) :
    ((is_portal m x y).isSome = true ↔ whiteAt m x y = true) ∧
    ((is_portal m x y).isSome = true → is_walkable m x y = true) ∧
    ¬(is_walkable m x y = false ∧ (is_portal m x y).isSome = true) := by
  have hiff : (is_portal m x y).isSome = true ↔ whiteAt m x y = true := by
    constructor
    · intro h
      by_cases hb : inBounds m x y = true
      · by_cases hw : isOpaqueWhite (getAt m x y) = true
        · simp [whiteAt, hb, hw]
        · rw [show is_portal m x y = none from by
            simp [is_portal, hb, hw]] at h
          simp at h
      · rw [show is_portal m x y = none from by
          simp [is_portal, Bool.eq_false_iff.mpr hb]] at h
        simp at h
    · intro h
      have h' : inBounds m x y = true ∧ isOpaqueWhite (getAt m x y) = true := by
        simpa [whiteAt] using h
      obtain ⟨R, hR, hpR⟩ := (C6_portal_region_partition m).2.1 (x, y) h
      have hfind : (detect_portal_regions m).findIdx?
          (fun region => decide ((x, y) ∈ region)) ≠ none := by
        intro hnone
        rw [List.findIdx?_eq_none_iff] at hnone
        have := hnone R hR
        simp [hpR] at this
      have : is_portal m x y = (detect_portal_regions m).findIdx?
          (fun region => decide ((x, y) ∈ region)) := by
        simp [is_portal, h'.1, h'.2]
      rw [this]
      exact Option.isSome_iff_ne_none.mpr hfind
  refine ⟨hiff, ?_, ?_⟩
  · intro h
    exact white_is_walkable (hiff.mp h)
  · rintro ⟨hwf, hs⟩
    rw [white_is_walkable (hiff.mp hs)] at hwf
    exact Bool.noConfusion hwf

theorem C2_portal_pixels_walkable_amended_witness :
    is_walkable whiteMask 0 0 = true :=
  (C2_portal_pixels_walkable_amended whiteMask 0 0).2.1 (by decide)

/-- Lookup in a Python-dict model (association list, first match). -/
def dGet {α : Type} : List (String × α) → String → Option α
  | [], _ => none
  | (k, v) :: tl, key => if k = key then some v else dGet tl key

/-- Dict assignment: overwrite an existing key or append a new one. -/
def dSet {α : Type} : List (String × α) → String → α → List (String × α)
  | [], key, val => [(key, val)]
  | (k, v) :: tl, key, val =>
    if k = key then (k, val) :: tl else (k, v) :: dSet tl key val

/-- Dict deletion (all bindings of the key; keys are unique in a dict). -/
def dDel {α : Type} : List (String × α) → String → List (String × α)
  | [], _ => []
  | (k, v) :: tl, key =>
    if k = key then dDel tl key else (k, v) :: dDel tl key

theorem dGet_dSet {α : Type} (l : List (String × α)) (k k' : String) (v : α) :
    dGet (dSet l k v) k' = if k = k' then some v else dGet l k' := by
  induction l with
  | nil =>
    by_cases h : k = k' <;> simp [dSet, dGet, h]
  | cons hd tl ih =>
    obtain ⟨k0, v0⟩ := hd
    by_cases h0 : k0 = k
    · subst h0
      by_cases h : k0 = k' <;> simp [dSet, dGet, h]
    · simp only [dSet, if_neg h0]
      by_cases h : k0 = k'
      · subst h
        have : ¬ k = k0 := fun hc => h0 hc.symm
        simp [dGet, this]
      · simp [dGet, h, ih]

theorem dGet_dDel {α : Type} (l : List (String × α)) (k k' : String) :
    dGet (dDel l k) k' = if k = k' then none else dGet l k' := by
  induction l with
  | nil => by_cases h : k = k' <;> simp [dDel, dGet, h]
  | cons hd tl ih =>
    obtain ⟨k0, v0⟩ := hd
    by_cases h0 : k0 = k
    · subst h0
      by_cases h : k0 = k'
      · subst h
        simp [dDel, dGet, ih]
      · simp [dDel, dGet, h, ih]
    · by_cases h : k0 = k'
      · subst h
        have hne : ¬ k = k0 := fun hc => h0 hc.symm
        simp [dDel, dGet, h0, hne]
      · simp [dDel, dGet, h0, h, ih]

theorem dDel_of_absent {α : Type} (l : List (String × α)) (k : String)
    (h : dGet l k = none) : dDel l k = l := by
  induction l with
  | nil => rfl
  | cons hd tl ih =>
    obtain ⟨k0, v0⟩ := hd
    by_cases h0 : k0 = k
    · subst h0
      simp [dGet] at h
    · simp only [dGet, if_neg h0] at h
      simp [dDel, h0, ih h]

/-- A live NPC record as kept by the registry (`_npcs`): the mutable fields
`apply_world_state` touches. -/
structure NpcRec where
  x : Rat
  y : Rat
  direction : String
deriving DecidableEq, Repr

/-- A static NPC definition (`NPCS_DEFINITION` entry). -/
structure NpcDef where
  x : Rat
  y : Rat
  initialScene : String
deriving DecidableEq, Repr

/-- The registry's global state: `_npcs` and `_npc_locations`
(`src/world/world_registry.py` lines 14-16; the prop maps are independent
and outside this claim). -/
structure RegistryState where
  npcs : List (String × NpcRec)
  npcLocations : List (String × String)
deriving DecidableEq, Repr

/-- One iteration of the NPC-creation loop of `initialize_world`: store the
new NPC object and its initial scene under the same id. -/
def initStep (st : RegistryState) (kv : String × NpcDef) : RegistryState :=
  { npcs := dSet st.npcs kv.1 ⟨kv.2.x, kv.2.y, "down"⟩,
    npcLocations := dSet st.npcLocations kv.1 kv.2.initialScene }

/-- `initialize_world` (`src/world/world_registry.py` lines 20-44): clear
both maps, then create every defined NPC and record its initial scene. -/
def initialize_world (defs : List (String × NpcDef)) : RegistryState :=
  defs.foldl initStep ⟨[], []⟩

/-- `get_npc`. -/
def get_npc (st : RegistryState) (npcId : String) : Option NpcRec :=
  dGet st.npcs npcId

/-- `get_npc_location`. -/
def get_npc_location (st : RegistryState) (npcId : String) : Option String :=
  dGet st.npcLocations npcId

/-- `move_npc_to_scene` (lines 102-105): update the location map only, and
only for a known id. -/
def move_npc_to_scene (st : RegistryState) (npcId sceneName : String) :
    RegistryState :=
  if (dGet st.npcLocations npcId).isSome then
    { st with npcLocations := dSet st.npcLocations npcId sceneName }
  else st

/-- `remove_npc` (lines 217-222): delete the id from both maps. -/
def remove_npc (st : RegistryState) (npcId : String) : RegistryState :=
  { npcs := dDel st.npcs npcId, npcLocations := dDel st.npcLocations npcId }

/-- One serialized NPC entry consumed by `apply_world_state`; absent JSON
keys are `none`, and the `id`/`scene` guards use Python truthiness. -/
structure NpcSave where
  saveId : Option String
  x : Option Rat
  y : Option Rat
  direction : Option String
  scene : Option String
deriving DecidableEq, Repr

/-- Python truthiness of an optional string (`None` and `""` are falsy). -/
def pyStrTruthy : Option String → Bool
  | none => false
  | some s => !(s == "")

/-- One iteration of the NPC loop of `apply_world_state`
(`src/world/world_registry.py` lines 172-181): skip falsy or unknown ids,
update the record in place, and write the location only when the saved
scene is truthy. -/
def apply_npc_save (st : RegistryState) (save : NpcSave) : RegistryState :=
  match save.saveId with
  | none => st
  | some npcId =>
    if npcId = "" then st
    else
      match dGet st.npcs npcId with
      | none => st
      | some previous =>
        let updated : NpcRec :=
          ⟨save.x.getD previous.x, save.y.getD previous.y,
           save.direction.getD previous.direction⟩
        let st' : RegistryState := { st with npcs := dSet st.npcs npcId updated }
        if pyStrTruthy save.scene then
          { st' with npcLocations := dSet st'.npcLocations npcId (save.scene.getD "") }
        else st'

/-- `apply_world_state` restricted to its NPC loop. -/
def apply_world_state (st : RegistryState) (saves : List NpcSave) : RegistryState :=
  saves.foldl apply_npc_save st

/-- The registry operations the claim ranges over. -/
inductive RegistryOp where
  | move (npcId sceneName : String)
  | remove (npcId : String)
  | applyState (saves : List NpcSave)
deriving DecidableEq, Repr

def applyOp (st : RegistryState) : RegistryOp → RegistryState
  | .move npcId sceneName => move_npc_to_scene st npcId sceneName
  | .remove npcId => remove_npc st npcId
  | .applyState saves => apply_world_state st saves

def applyOps (st : RegistryState) (ops : List RegistryOp) : RegistryState :=
  ops.foldl applyOp st

/-- The claimed invariant: both maps always have exactly the same keys. -/
def KeysAligned (st : RegistryState) : Prop :=
  ∀ npcId, (get_npc st npcId).isSome = (get_npc_location st npcId).isSome

theorem initStep_aligned {st : RegistryState} (hal : KeysAligned st)
    (kv : String × NpcDef) : KeysAligned (initStep st kv) := by
  intro k
  simp only [initStep, get_npc, get_npc_location, dGet_dSet]
  by_cases h : kv.1 = k
  · simp [h]
  · simp only [h, if_false]
    exact hal k

theorem initStep_presence {st : RegistryState} {k : String}
    (h : (get_npc st k).isSome = true ∧ (get_npc_location st k).isSome = true)
    (kv : String × NpcDef) :
    (get_npc (initStep st kv) k).isSome = true ∧
    (get_npc_location (initStep st kv) k).isSome = true := by
  simp only [initStep, get_npc, get_npc_location, dGet_dSet]
  by_cases he : kv.1 = k
  · simp [he]
  · simpa [he] using h

theorem initFold_aligned :
    ∀ (defs : List (String × NpcDef)) (st : RegistryState), KeysAligned st →
      KeysAligned (defs.foldl initStep st) := by
  intro defs
  induction defs with
  | nil => intro st h; exact h
  | cons kv tl ih =>
    intro st h
    exact ih (initStep st kv) (initStep_aligned h kv)

theorem initFold_presence :
    ∀ (defs : List (String × NpcDef)) (st : RegistryState) (k : String),
      (get_npc st k).isSome = true ∧ (get_npc_location st k).isSome = true →
      (get_npc (defs.foldl initStep st) k).isSome = true ∧
      (get_npc_location (defs.foldl initStep st) k).isSome = true := by
  intro defs
  induction defs with
  | nil => intro st k h; exact h
  | cons kv tl ih =>
    intro st k h
    exact ih (initStep st kv) k (initStep_presence h kv)

theorem initFold_mem_presence :
    ∀ (defs : List (String × NpcDef)) (st : RegistryState),
      ∀ kv ∈ defs,
        (get_npc (defs.foldl initStep st) kv.1).isSome = true ∧
        (get_npc_location (defs.foldl initStep st) kv.1).isSome = true := by
  intro defs
  induction defs with
  | nil => intro st kv h; exact absurd h (List.not_mem_nil kv)
  | cons kv0 tl ih =>
    intro st kv h
    rcases List.mem_cons.mp h with he | ht
    · subst he
      refine initFold_presence tl (initStep st kv) kv.1 ?_
      simp [initStep, get_npc, get_npc_location, dGet_dSet]
    · exact ih (initStep st kv0) kv ht

theorem move_npc_keys (st : RegistryState) (npcId sceneName : String) :
    (∀ k, get_npc (move_npc_to_scene st npcId sceneName) k = get_npc st k) ∧
    (∀ k, (get_npc_location (move_npc_to_scene st npcId sceneName) k).isSome
      = (get_npc_location st k).isSome) := by
  unfold move_npc_to_scene
  by_cases h : (dGet st.npcLocations npcId).isSome
  · rw [if_pos h]
    refine ⟨fun k => rfl, fun k => ?_⟩
    simp only [get_npc_location, dGet_dSet]
    by_cases he : npcId = k
    · subst he
      simp [h]
    · simp [he]
  · rw [if_neg h]
    exact ⟨fun k => rfl, fun k => rfl⟩

theorem apply_npc_save_keys {st : RegistryState} (hal : KeysAligned st)
    (save : NpcSave) :
    (∀ k, (get_npc (apply_npc_save st save) k).isSome = (get_npc st k).isSome) ∧
    (∀ k, (get_npc_location (apply_npc_save st save) k).isSome
      = (get_npc_location st k).isSome) := by
  unfold apply_npc_save
  cases hid : save.saveId with
  | none => exact ⟨fun k => rfl, fun k => rfl⟩
  | some npcId =>
    dsimp only
    by_cases hemp : npcId = ""
    · rw [if_pos hemp]
      exact ⟨fun k => rfl, fun k => rfl⟩
    · rw [if_neg hemp]
      cases hrec : dGet st.npcs npcId with
      | none => exact ⟨fun k => rfl, fun k => rfl⟩
      | some previous =>
        dsimp only
        have hnpc : ∀ k, (dGet (dSet st.npcs npcId
            ⟨save.x.getD previous.x, save.y.getD previous.y,
             save.direction.getD previous.direction⟩) k).isSome
            = (dGet st.npcs k).isSome := by
          intro k
          rw [dGet_dSet]
          by_cases he : npcId = k
          · subst he
            simp [hrec]
          · simp [he]
        have hlocSome : (dGet st.npcLocations npcId).isSome = true := by
          have := hal npcId
          simp only [get_npc, get_npc_location, hrec] at this
          exact this.symm
        by_cases hsc : pyStrTruthy save.scene = true
        · rw [if_pos hsc]
          refine ⟨fun k => hnpc k, fun k => ?_⟩
          simp only [get_npc_location, dGet_dSet]
          by_cases he : npcId = k
          · subst he
            simp [hlocSome]
          · simp [he]
        · rw [if_neg hsc]
          exact ⟨fun k => hnpc k, fun k => rfl⟩

theorem apply_world_state_keys :
    ∀ (saves : List NpcSave) (st : RegistryState), KeysAligned st →
      (∀ k, (get_npc (apply_world_state st saves) k).isSome
        = (get_npc st k).isSome) ∧
      (∀ k, (get_npc_location (apply_world_state st saves) k).isSome
        = (get_npc_location st k).isSome) := by
  intro saves
  induction saves with
  | nil => intro st _; exact ⟨fun k => rfl, fun k => rfl⟩
  | cons save tl ih =>
    intro st hal
    have hstep := apply_npc_save_keys hal save
    have hal' : KeysAligned (apply_npc_save st save) := by
      intro k
      rw [hstep.1 k, hstep.2 k]
      exact hal k
    have hrest := ih (apply_npc_save st save) hal'
    exact ⟨fun k => (hrest.1 k).trans (hstep.1 k),
      fun k => (hrest.2 k).trans (hstep.2 k)⟩

theorem applyOp_aligned {st : RegistryState} (hal : KeysAligned st)
    (op : RegistryOp) : KeysAligned (applyOp st op) := by
  cases op with
  | move npcId sceneName =>
    intro k
    have h := move_npc_keys st npcId sceneName
    rw [show applyOp st (.move npcId sceneName)
      = move_npc_to_scene st npcId sceneName from rfl, h.1 k, h.2 k]
    exact hal k
  | remove npcId =>
    intro k
    show (get_npc (remove_npc st npcId) k).isSome
      = (get_npc_location (remove_npc st npcId) k).isSome
    simp only [remove_npc, get_npc, get_npc_location, dGet_dDel]
    by_cases he : npcId = k
    · simp [he]
    · simp only [he, if_false]
      exact hal k
  | applyState saves =>
    intro k
    have h := apply_world_state_keys saves st hal
    rw [show applyOp st (.applyState saves) = apply_world_state st saves from rfl,
      h.1 k, h.2 k]
    exact hal k

theorem applyOps_aligned :
    ∀ (ops : List RegistryOp) (st : RegistryState), KeysAligned st →
      KeysAligned (applyOps st ops) := by
  intro ops
  induction ops with
  | nil => intro st h; exact h
  | cons op tl ih =>
    intro st h
    exact ih (applyOp st op) (applyOp_aligned h op)

/-- C10: the registry keeps `_npcs` and `_npc_locations` key-aligned.
After `initialize_world` every created id is in both maps;
`move_npc_to_scene` never touches the NPC map and never adds or removes a
location key (an unknown id is a no-op); `remove_npc` deletes the id from
both maps and is a no-op for an unknown id; `apply_world_state` never
changes either key set (it writes only ids already present in the NPC
map); hence after any sequence of these operations `get_npc_location id`
is non-None exactly when `get_npc id` is. -/
theorem C10_registry_key_alignment (defs : List (String × NpcDef))
    (ops : List RegistryOp) :
    (∀ kv ∈ defs, (get_npc (initialize_world defs) kv.1).isSome = true ∧
      (get_npc_location (initialize_world defs) kv.1).isSome = true) ∧
    (∀ (st : RegistryState) (npcId sceneName : String),
      (∀ k, get_npc (move_npc_to_scene st npcId sceneName) k = get_npc st k) ∧
      (∀ k, (get_npc_location (move_npc_to_scene st npcId sceneName) k).isSome
        = (get_npc_location st k).isSome)) ∧
    (∀ (st : RegistryState) (npcId sceneName : String),
      get_npc_location st npcId = none →
      move_npc_to_scene st npcId sceneName = st) ∧
    (∀ (st : RegistryState) (npcId : String),
      get_npc (remove_npc st npcId) npcId = none ∧
      get_npc_location (remove_npc st npcId) npcId = none) ∧
    (∀ (st : RegistryState) (npcId : String), get_npc st npcId = none →
      get_npc_location st npcId = none → remove_npc st npcId = st) ∧
    (∀ (st : RegistryState) (saves : List NpcSave), KeysAligned st →
      (∀ k, (get_npc (apply_world_state st saves) k).isSome
        = (get_npc st k).isSome) ∧
      (∀ k, (get_npc_location (apply_world_state st saves) k).isSome
        = (get_npc_location st k).isSome)) ∧
    KeysAligned (applyOps (initialize_world defs) ops) := by
  refine ⟨?_, move_npc_keys, ?_, ?_, ?_,
    fun st saves hal => apply_world_state_keys saves st hal, ?_⟩
  · intro kv hkv
    exact initFold_mem_presence defs ⟨[], []⟩ kv hkv
  · intro st npcId sceneName h
    unfold move_npc_to_scene
    rw [show dGet st.npcLocations npcId = none from h]
    rfl
  · intro st npcId
    constructor
    · simp [remove_npc, get_npc, dGet_dDel]
    · simp [remove_npc, get_npc_location, dGet_dDel]
  · intro st npcId h1 h2
    show RegistryState.mk (dDel st.npcs npcId) (dDel st.npcLocations npcId) = st
    rw [dDel_of_absent _ _ h1, dDel_of_absent _ _ h2]
  · apply applyOps_aligned
    apply initFold_aligned
    intro k
    rfl

theorem C10_registry_key_alignment_witness :
    move_npc_to_scene (initialize_world [("henry", ⟨400, 720, "cat_cafe"⟩)])
      "ghost" "arcade"
      = initialize_world [("henry", ⟨400, 720, "cat_cafe"⟩)] :=
  (C10_registry_key_alignment [("henry", ⟨400, 720, "cat_cafe"⟩)] []).2.2.1
    (initialize_world [("henry", ⟨400, 720, "cat_cafe"⟩)]) "ghost" "arcade"
    (by decide)

/-- Python `int()` on an exact numeric value: truncation toward zero. -/
def pyInt (q : Rat) : Int :=
  if 0 ≤ q then ⌊q⌋ else -⌊-q⌋

/-- The per-NPC mutable state touched by the navigation code
(`src/entities/npc.py`): sprite-origin position, collision-mask offsets and
scale, movement and cross-scene navigation fields. `hasExtractor` is the
truthiness of `collision_mask_extractor`; when it is false the mask offsets
are 0 (they are only assigned under the extractor). `maskSystem` is the
scene collision system reference (None while off-screen). -/
structure NpcState where
  npcId : String
  x : Rat
  y : Rat
  maskOffsetX : Int
  maskOffsetY : Int
  spriteScale : Rat
  hasExtractor : Bool
  spriteW : Nat
  spriteH : Nat
  speed : Rat
  direction : String
  path : List (Rat × Rat)
  currentWaypointIdx : Nat
  destination : Option (Rat × Rat)
  scenePath : Option (List SceneHop)
  currentSceneStep : Nat
  targetScene : Option String
  sceneRef : Option String
  maskSystem : Option Mask
  transitioning : Bool

/-- `NPC._get_feet_position` (`src/entities/npc.py` lines 161-173): with an
extractor, sprite origin plus the `int()`-scaled mask offset; otherwise the
sprite's bottom-center. -/
def get_feet (n : NpcState) : Rat × Rat :=
  if n.hasExtractor then
    (n.x + (pyInt ((n.maskOffsetX : Rat) * n.spriteScale) : Int),
     n.y + (pyInt ((n.maskOffsetY : Rat) * n.spriteScale) : Int))
  else
    (n.x + ((n.spriteW / 2 : Nat) : Int), n.y + (n.spriteH : Int))

/-- `NPC._set_position_from_feet` (`src/entities/npc.py` lines 175-189). -/
def set_position_from_feet (n : NpcState) (feetX feetY : Rat) : NpcState :=
  if n.hasExtractor then
    { n with x := feetX - (pyInt ((n.maskOffsetX : Rat) * n.spriteScale) : Int),
             y := feetY - (pyInt ((n.maskOffsetY : Rat) * n.spriteScale) : Int) }
  else
    { n with x := feetX - ((n.spriteW / 2 : Nat) : Int),
             y := feetY - (n.spriteH : Int) }

/-- One entry of a scene's `PORTAL_MAP`: destination scene and feet-space
spawn point. -/
structure PortalCfg where
  toScene : String
  spawn : Int × Int
deriving DecidableEq, Repr

/-- The world as seen by `BaseScene.trigger_npc_portal_transition`: the
loaded scenes' NPC id lists, the active (stack-top) scene and its mask, and
the world registry. -/
structure TransWorld where
  scenes : List (String × List String)
  activeSceneName : Option String
  activeMask : Option Mask
  registry : RegistryState

/-- `range(-100, 101, 20)` of the nearby-walkable search. -/
def searchOffsets : List Int :=
  [-100, -80, -60, -40, -20, 0, 20, 40, 60, 80, 100]

/-- The nearby-walkable-point search of `trigger_npc_portal_transition`
(`src/scenes/base_scene.py` lines 903-924): first offset pair (row-major in
offset_x then offset_y) whose test point is walkable. -/
def searchWalkable (mask : Mask) (feetX feetY : Rat) : Option (Rat × Rat) :=
  searchOffsets.findSome? (fun ox =>
    searchOffsets.findSome? (fun oy =>
      let tx := feetX + (ox : Int)
      let ty := feetY + (oy : Int)
      if is_walkable mask (pyInt tx) (pyInt ty) then some (tx, ty) else none))

/-- Clearing of a finished scene path (`src/scenes/base_scene.py` lines
929-932). -/
def clearFinishedScenePath (n : NpcState) : NpcState :=
  match n.scenePath with
  | none => n
  | some hops =>
    if hops.isEmpty then n
    else if n.currentSceneStep + 1 ≥ hops.length then
      { n with scenePath := none, targetScene := none }
    else n

/-- `BaseScene.trigger_npc_portal_transition` (`src/scenes/base_scene.py`
lines 841-947): look up the portal; remove the NPC from the departing
scene's list; update the registry location; reposition the sprite origin to
the spawn point minus the truncated scaled mask offset (the `hasattr`
branch always holds for `NPC` objects); then, if the destination scene is
the active one, insert the NPC (or, when already present, refresh its
references and verify the spawn is walkable, searching nearby otherwise),
and if the active scene is a different one, park the NPC off-screen;
finally clear the `transitioning` flag. Drawing-only effects (`rect`,
`props`) are not modelled. -/
def trigger_npc_portal_transition (world : TransWorld) (selfScene : String)
    (portalMap : Nat → Option PortalCfg) (npc : NpcState) (portalId : Nat) :
    TransWorld × NpcState :=
  match portalMap portalId with
  | none => (world, npc)
  | some cfg =>
    let target := cfg.toScene
    let spawn := cfg.spawn
    let selfList := (dGet world.scenes selfScene).getD []
    let scenes1 := dSet world.scenes selfScene (selfList.erase npc.npcId)
    let registry1 := move_npc_to_scene world.registry npc.npcId target
    let npc1 := { npc with
      x := ((spawn.1 - pyInt ((npc.maskOffsetX : Rat) * npc.spriteScale) : Int) : Rat),
      y := ((spawn.2 - pyInt ((npc.maskOffsetY : Rat) * npc.spriteScale) : Int) : Rat) }
    let world1 : TransWorld := { world with scenes := scenes1, registry := registry1 }
    match world.activeSceneName with
    | none => (world1, { npc1 with transitioning := false })
    | some activeName =>
      if activeName = target then
        let activeList := (dGet scenes1 activeName).getD []
        if npc.npcId ∈ activeList then
          let npc2 := { npc1 with sceneRef := some activeName,
                                  maskSystem := world.activeMask }
          match world.activeMask with
          | none => (world1, { npc2 with transitioning := false })
          | some mask =>
            let feet := get_feet npc2
            let npc3 :=
              if is_walkable mask (pyInt feet.1) (pyInt feet.2) then npc2
              else
                match searchWalkable mask feet.1 feet.2 with
                | some (tx, ty) =>
                  { npc2 with
                    x := tx - (pyInt ((npc2.maskOffsetX : Rat) * npc2.spriteScale) : Int),
                    y := ty - (pyInt ((npc2.maskOffsetY : Rat) * npc2.spriteScale) : Int) }
                | none => npc2
            (world1, { clearFinishedScenePath npc3 with transitioning := false })
        else
          let scenes2 := dSet scenes1 activeName (activeList ++ [npc.npcId])
          ({ world1 with scenes := scenes2 },
           { npc1 with sceneRef := some activeName,
                       maskSystem := world.activeMask, transitioning := false })
      else
        (world1, { npc1 with path := [], destination := none, sceneRef := none,
                             maskSystem := none, transitioning := false })

/-- An NPC whose collision mask failed to load: `collision_mask_extractor`
is `None`, so the mask offsets stayed 0 and feet queries fall back to the
sprite's bottom-center. -/
def henryNoMask : NpcState :=
  { npcId := "henry", x := 0, y := 0, maskOffsetX := 0, maskOffsetY := 0,
    spriteScale := 1/2, hasExtractor := false, spriteW := 290, spriteH := 440,
    speed := 100, direction := "down", path := [], currentWaypointIdx := 0,
    destination := none, scenePath := none, currentSceneStep := 0,
    targetScene := none, sceneRef := some "cat_cafe", maskSystem := none,
    transitioning := true }

def c8World : TransWorld :=
  { scenes := [("cat_cafe", ["henry"])], activeSceneName := some "cat_cafe",
    activeMask := none,
    registry := ⟨[("henry", ⟨0, 0, "down"⟩)], [("henry", "cat_cafe")]⟩ }

def c8PortalMap : Nat → Option PortalCfg :=
  fun i => if i = 0 then some ⟨"arcade", (50, 60)⟩ else none

/-- The core behavior of `trigger_npc_portal_transition` on a fresh arrival
(a portal with a configuration, leading to a different scene, with the NPC
listed at most once in the departing scene and not yet in the destination's
list, and known to the registry): the NPC leaves the old list, the registry
moves to the destination, the sprite origin lands at the spawn minus the
truncated scaled mask offset (so feet hit the spawn exactly when an
extractor is present, and the bottom-center fallback otherwise), and the
NPC joins the destination's list exactly when that scene is active. -/
theorem trigger_transition_spec (world : TransWorld) (selfScene : String)
    (portalMap : Nat → Option PortalCfg) (npc : NpcState) (portalId : Nat)
    (cfg : PortalCfg) (hcfg : portalMap portalId = some cfg)
    (hdiff : cfg.toScene ≠ selfScene)
    (hcount : ((dGet world.scenes selfScene).getD []).count npc.npcId ≤ 1)
    (hnotdest : npc.npcId ∉ (dGet world.scenes cfg.toScene).getD [])
    (hreg : (get_npc_location world.registry npc.npcId).isSome = true) :
    npc.npcId ∉ (dGet (trigger_npc_portal_transition world selfScene portalMap
      npc portalId).1.scenes selfScene).getD [] ∧
    get_npc_location (trigger_npc_portal_transition world selfScene portalMap
      npc portalId).1.registry npc.npcId = some cfg.toScene ∧
    (npc.hasExtractor = true →
      get_feet (trigger_npc_portal_transition world selfScene portalMap
        npc portalId).2 = ((cfg.spawn.1 : Rat), (cfg.spawn.2 : Rat))) ∧
    (npc.hasExtractor = false →
      get_feet (trigger_npc_portal_transition world selfScene portalMap
        npc portalId).2 =
        ((cfg.spawn.1 : Rat)
            - (pyInt ((npc.maskOffsetX : Rat) * npc.spriteScale) : Int)
            + ((npc.spriteW / 2 : Nat) : Int),
         (cfg.spawn.2 : Rat)
            - (pyInt ((npc.maskOffsetY : Rat) * npc.spriteScale) : Int)
            + (npc.spriteH : Int))) ∧
    (npc.npcId ∈ (dGet (trigger_npc_portal_transition world selfScene portalMap
        npc portalId).1.scenes cfg.toScene).getD []
      ↔ world.activeSceneName = some cfg.toScene) := by
  have hndiff : ¬ selfScene = cfg.toScene := fun h => hdiff h.symm
  -- the erased departing list no longer holds the id
  have herase : npc.npcId ∉ ((dGet world.scenes selfScene).getD []).erase npc.npcId := by
    intro hc
    have hcnt := List.count_erase_self npc.npcId ((dGet world.scenes selfScene).getD [])
    have hpos := List.count_pos_iff.mpr hc
    omega
  -- the registry after move_npc_to_scene
  have hregafter : get_npc_location
      (move_npc_to_scene world.registry npc.npcId cfg.toScene) npc.npcId
      = some cfg.toScene := by
    unfold move_npc_to_scene get_npc_location at *
    rw [if_pos hreg]
    simp [dGet_dSet]
  -- the repositioned NPC
  set sox : Int := pyInt ((npc.maskOffsetX : Rat) * npc.spriteScale) with hsox
  set soy : Int := pyInt ((npc.maskOffsetY : Rat) * npc.spriteScale) with hsoy
  have hfeet : ∀ n' : NpcState,
      n'.x = ((cfg.spawn.1 - sox : Int) : Rat) →
      n'.y = ((cfg.spawn.2 - soy : Int) : Rat) →
      n'.maskOffsetX = npc.maskOffsetX → n'.maskOffsetY = npc.maskOffsetY →
      n'.spriteScale = npc.spriteScale → n'.hasExtractor = npc.hasExtractor →
      n'.spriteW = npc.spriteW → n'.spriteH = npc.spriteH →
      (npc.hasExtractor = true →
        get_feet n' = ((cfg.spawn.1 : Rat), (cfg.spawn.2 : Rat))) ∧
      (npc.hasExtractor = false →
        get_feet n' = ((cfg.spawn.1 : Rat) - (sox : Int) + ((npc.spriteW / 2 : Nat) : Int),
          (cfg.spawn.2 : Rat) - (soy : Int) + (npc.spriteH : Int))) := by
    intro n' hx hy ho1 ho2 hsc hex hw hh
    constructor
    · intro hext
      unfold get_feet
      rw [hex, hext, if_pos rfl, hx, hy, ho1, ho2, hsc, ← hsox, ← hsoy,
        Prod.mk.injEq]
      constructor <;> · push_cast; ring
    · intro hext
      unfold get_feet
      rw [hex, hext, hx, hy, hw, hh]
      simp only [Bool.false_eq_true, if_false]
      rw [Prod.mk.injEq]
      constructor <;> · push_cast; ring
  -- now case on the shape of the world
  unfold trigger_npc_portal_transition
  rw [hcfg]
  cases hact : world.activeSceneName with
  | none =>
    dsimp only
    refine ⟨?_, hregafter, ?_, ?_, ?_⟩
    · simp only [dGet_dSet, if_pos rfl]
      simpa using herase
    · intro hext
      refine ((hfeet ?_ ?_ ?_ ?_ ?_ ?_ ?_ ?_ ?_).1) hext <;> rfl
    · intro hext
      refine ((hfeet ?_ ?_ ?_ ?_ ?_ ?_ ?_ ?_ ?_).2) hext <;> rfl
    · simp only [dGet_dSet, if_neg hndiff]
      constructor
      · intro hc; exact absurd hc hnotdest
      · intro hc; exact Option.noConfusion hc
  | some activeName =>
    dsimp only
    by_cases han : activeName = cfg.toScene
    · rw [if_pos han]
      have hnotactive : npc.npcId ∉
          (dGet (dSet world.scenes selfScene
            (((dGet world.scenes selfScene).getD []).erase npc.npcId))
            activeName).getD [] := by
        rw [han, dGet_dSet, if_neg hndiff]
        exact hnotdest
      rw [if_neg hnotactive]
      dsimp only
      refine ⟨?_, hregafter, ?_, ?_, ?_⟩
      · rw [dGet_dSet]
        rw [if_neg (fun hc : activeName = selfScene => hndiff (hc ▸ han.symm ▸ rfl))]
        simp only [dGet_dSet, if_pos rfl]
        simpa using herase
      · intro hext
        refine ((hfeet ?_ ?_ ?_ ?_ ?_ ?_ ?_ ?_ ?_).1) hext <;> rfl
      · intro hext
        refine ((hfeet ?_ ?_ ?_ ?_ ?_ ?_ ?_ ?_ ?_).2) hext <;> rfl
      · rw [← han, dGet_dSet, if_pos rfl]
        simp [han]
    · rw [if_neg han]
      dsimp only
      refine ⟨?_, hregafter, ?_, ?_, ?_⟩
      · simp only [dGet_dSet, if_pos rfl]
        simpa using herase
      · intro hext
        refine ((hfeet ?_ ?_ ?_ ?_ ?_ ?_ ?_ ?_ ?_).1) hext <;> rfl
      · intro hext
        refine ((hfeet ?_ ?_ ?_ ?_ ?_ ?_ ?_ ?_ ?_).2) hext <;> rfl
      · simp only [dGet_dSet, if_neg hndiff]
        constructor
        · intro hc; exact absurd hc hnotdest
        · intro hc; exact absurd (Option.some.inj hc) han

/-- C8 counterexample: for an NPC without a collision-mask extractor
(`collision_mask_extractor is None`, mask offsets 0), the transition places
the sprite top-left at the spawn point, and `_get_feet_position` then
reports the bottom-center fallback `spawn + (spriteW // 2, spriteH)` =
`(195, 500)` — not the spawn point `(50, 60)`. The protocol's other
postconditions (old-list removal, registry update) do hold here. -/
theorem C8_portal_transition_counterexample :
    get_feet (trigger_npc_portal_transition c8World "cat_cafe" c8PortalMap
      henryNoMask 0).2 = ((195 : Rat), (500 : Rat)) ∧
    ((195 : Rat), (500 : Rat)) ≠ ((50 : Rat), (60 : Rat)) ∧
    c8PortalMap 0 = some ⟨"arcade", (50, 60)⟩ ∧
    get_npc_location (trigger_npc_portal_transition c8World "cat_cafe"
      c8PortalMap henryNoMask 0).1.registry "henry" = some "arcade" ∧
    "henry" ∉ (dGet (trigger_npc_portal_transition c8World "cat_cafe"
      c8PortalMap henryNoMask 0).1.scenes "cat_cafe").getD [] := by
  have hred : trigger_npc_portal_transition c8World "cat_cafe" c8PortalMap
      henryNoMask 0 =
      ({ scenes := [("cat_cafe", [])], activeSceneName := some "cat_cafe",
         activeMask := none,
         registry := ⟨[("henry", ⟨0, 0, "down"⟩)], [("henry", "arcade")]⟩ },
       { henryNoMask with
          x := ((50 - pyInt ((0 : Int) * (1/2 : Rat)) : Int) : Rat),
          y := ((60 - pyInt ((0 : Int) * (1/2 : Rat)) : Int) : Rat),
          path := [], destination := none, sceneRef := none,
          maskSystem := none, transitioning := false }) := rfl
  have hpy : pyInt (((0 : Int) : Rat) * (1/2 : Rat)) = 0 := by
    norm_num [pyInt]
  refine ⟨?_, by norm_num, rfl, ?_, ?_⟩
  · rw [hred]
    unfold get_feet
    norm_num [henryNoMask, hpy, pyInt, Int.floor_zero]
  · rw [hred]
    decide
  · rw [hred]
    decide

/-- C8 (amended): the transition protocol's postconditions hold in order —
the NPC is removed from the departing scene's list, the registry is
updated to the destination, the NPC is repositioned by subtracting the
truncated scaled mask offset from the configured spawn, and the NPC is
inserted into the destination's list exactly when that scene is active.
The feet land exactly on the spawn point for an NPC WITH a collision-mask
extractor; an NPC without one instead has its sprite origin at the spawn
minus (truncated) offsets and its feet at the bottom-center fallback. -/
theorem C8_portal_transition_amended (world : TransWorld) (selfScene : String)
    (portalMap : Nat → Option PortalCfg) (npc : NpcState) (portalId : Nat)
    (cfg : PortalCfg) (hcfg : portalMap portalId = some cfg)
    (hdiff : cfg.toScene ≠ selfScene)
    (hcount : ((dGet world.scenes selfScene).getD []).count npc.npcId ≤ 1)
    (hnotdest : npc.npcId ∉ (dGet world.scenes cfg.toScene).getD [])
    (hreg : (get_npc_location world.registry npc.npcId).isSome = true) :
    npc.npcId ∉ (dGet (trigger_npc_portal_transition world selfScene portalMap
      npc portalId).1.scenes selfScene).getD [] ∧
    get_npc_location (trigger_npc_portal_transition world selfScene portalMap
      npc portalId).1.registry npc.npcId = some cfg.toScene ∧
    (npc.hasExtractor = true →
      get_feet (trigger_npc_portal_transition world selfScene portalMap
        npc portalId).2 = ((cfg.spawn.1 : Rat), (cfg.spawn.2 : Rat))) ∧
    (npc.hasExtractor = false →
      get_feet (trigger_npc_portal_transition world selfScene portalMap
        npc portalId).2 =
        ((cfg.spawn.1 : Rat)
            - (pyInt ((npc.maskOffsetX : Rat) * npc.spriteScale) : Int)
            + ((npc.spriteW / 2 : Nat) : Int),
         (cfg.spawn.2 : Rat)
            - (pyInt ((npc.maskOffsetY : Rat) * npc.spriteScale) : Int)
            + (npc.spriteH : Int))) ∧
    (npc.npcId ∈ (dGet (trigger_npc_portal_transition world selfScene portalMap
        npc portalId).1.scenes cfg.toScene).getD []
      ↔ world.activeSceneName = some cfg.toScene) :=
  trigger_transition_spec world selfScene portalMap npc portalId cfg hcfg
    hdiff hcount hnotdest hreg

def henryWithMask : NpcState :=
  { henryNoMask with hasExtractor := true, maskOffsetX := 5, maskOffsetY := 7 }

theorem C8_portal_transition_amended_witness :
    get_feet (trigger_npc_portal_transition c8World "cat_cafe" c8PortalMap
      henryWithMask 0).2 = ((50 : Rat), (60 : Rat)) :=
  (C8_portal_transition_amended c8World "cat_cafe" c8PortalMap henryWithMask 0
    ⟨"arcade", (50, 60)⟩ rfl (by decide) (by decide) (by decide)
    (by decide)).2.2.1 rfl

/-- The mutable state of `WanderState` (`src/ai/state_machine.py` lines
92-95 and 29): chosen target, warp timer, and the state timer. -/
structure WanderTimer where
  targetX : Option Rat
  targetY : Option Rat
  warpTime : Rat
  timeInState : Rat

/-- The off-screen branch of `WanderState.enter` once a valid candidate
target has been accepted (`src/ai/state_machine.py` lines 164-173): store
the target, set `warp_time = dist / speed` (0 for non-positive speed), do
not touch the NPC — in particular no pathfind is issued and `npc.path` is
left alone. `dist` stands for the float `math.sqrt((target_x - feet_x)**2 +
(target_y - feet_y)**2)`; theorems pin it down by the hypothesis
`dist ≥ 0 ∧ dist² = (Δx)² + (Δy)²`. -/
def wander_enter_offscreen (npc : NpcState) (targetX targetY dist : Rat) :
    WanderTimer × NpcState :=
  (⟨some targetX, some targetY,
    if npc.speed > 0 then dist / npc.speed else 0, 0⟩, npc)

/-- `WanderState.is_complete` (`src/ai/state_machine.py` lines 188-209):
with a positive warp timer, complete exactly when the state timer reaches
it, teleporting the NPC to the target minus the RAW (un-truncated) scaled
mask offset — the `hasattr` branch always holds on `NPC` objects;
otherwise complete when the local path is exhausted. -/
def wander_is_complete (st : WanderTimer) (npc : NpcState) : Bool × NpcState :=
  if st.warpTime > 0 then
    if st.timeInState ≥ st.warpTime then
      match st.targetX, st.targetY with
      | some tx, some ty =>
        (true, { npc with
          x := tx - (npc.maskOffsetX : Rat) * npc.spriteScale,
          y := ty - (npc.maskOffsetY : Rat) * npc.spriteScale })
      | _, _ => (true, npc)
    else (false, npc)
  else
    (!(decide (npc.path ≠ [] ∧ npc.currentWaypointIdx < npc.path.length)), npc)

/-- Behavior of the off-screen warp: timer `dist/speed`, no path issued,
incomplete before the timer, teleport at the timer with feet landing at
the target minus the fractional part of the scaled mask offset. -/
theorem wander_warp_spec (npc : NpcState) (targetX targetY dist : Rat)
    (hspeed : 0 < npc.speed) (hdpos : 0 < dist)
    (hdist : dist^2 = (targetX - (get_feet npc).1)^2
      + (targetY - (get_feet npc).2)^2) :
    (wander_enter_offscreen npc targetX targetY dist).2 = npc ∧
    (wander_enter_offscreen npc targetX targetY dist).1.warpTime
      = dist / npc.speed ∧
    (∀ t : Rat, t < dist / npc.speed →
      (wander_is_complete
        { (wander_enter_offscreen npc targetX targetY dist).1 with
          timeInState := t } npc).1 = false) ∧
    (∀ t : Rat, dist / npc.speed ≤ t →
      wander_is_complete
        { (wander_enter_offscreen npc targetX targetY dist).1 with
          timeInState := t } npc =
        (true, { npc with
          x := targetX - (npc.maskOffsetX : Rat) * npc.spriteScale,
          y := targetY - (npc.maskOffsetY : Rat) * npc.spriteScale }) ∧
      (npc.hasExtractor = true →
        get_feet (wander_is_complete
          { (wander_enter_offscreen npc targetX targetY dist).1 with
            timeInState := t } npc).2 =
          (targetX - ((npc.maskOffsetX : Rat) * npc.spriteScale
              - (pyInt ((npc.maskOffsetX : Rat) * npc.spriteScale) : Int)),
           targetY - ((npc.maskOffsetY : Rat) * npc.spriteScale
              - (pyInt ((npc.maskOffsetY : Rat) * npc.spriteScale) : Int))))) := by
  have hwarp : (wander_enter_offscreen npc targetX targetY dist).1.warpTime
      = dist / npc.speed := by
    unfold wander_enter_offscreen
    simp [hspeed]
  have hwpos : (0 : Rat) < dist / npc.speed := div_pos hdpos hspeed
  have hcond : ∀ t : Rat,
      ({ (wander_enter_offscreen npc targetX targetY dist).1 with
        timeInState := t } : WanderTimer).warpTime > 0 := by
    intro t
    show (wander_enter_offscreen npc targetX targetY dist).1.warpTime > 0
    rw [hwarp]
    exact hwpos
  refine ⟨rfl, hwarp, ?_, ?_⟩
  · intro t ht
    unfold wander_is_complete
    rw [if_pos (hcond t)]
    rw [if_neg (show ¬ ({ (wander_enter_offscreen npc targetX targetY dist).1
        with timeInState := t } : WanderTimer).timeInState ≥
          ({ (wander_enter_offscreen npc targetX targetY dist).1 with
            timeInState := t } : WanderTimer).warpTime from by
      show ¬ t ≥ (wander_enter_offscreen npc targetX targetY dist).1.warpTime
      rw [hwarp]
      exact not_le.mpr ht)]
  · intro t ht
    have hred : wander_is_complete
        { (wander_enter_offscreen npc targetX targetY dist).1 with
          timeInState := t } npc =
        (true, { npc with
          x := targetX - (npc.maskOffsetX : Rat) * npc.spriteScale,
          y := targetY - (npc.maskOffsetY : Rat) * npc.spriteScale }) := by
      unfold wander_is_complete
      rw [if_pos (hcond t)]
      rw [if_pos (show ({ (wander_enter_offscreen npc targetX targetY dist).1
          with timeInState := t } : WanderTimer).timeInState ≥
            ({ (wander_enter_offscreen npc targetX targetY dist).1 with
              timeInState := t } : WanderTimer).warpTime from by
        show t ≥ (wander_enter_offscreen npc targetX targetY dist).1.warpTime
        rw [hwarp]
        exact ht)]
      rfl
    refine ⟨hred, ?_⟩
    intro hext
    rw [hred]
    unfold get_feet
    rw [show ({ npc with
        x := targetX - (npc.maskOffsetX : Rat) * npc.spriteScale,
        y := targetY - (npc.maskOffsetY : Rat) * npc.spriteScale } :
          NpcState).hasExtractor = npc.hasExtractor from rfl, hext,
      if_pos rfl, Prod.mk.injEq]
    constructor <;> · dsimp only; ring

/-- Henry as configured in-game: collision-mask extractor loaded, sprite
scale 0.5, placed so that his feet sit at the origin. -/
def wanderNpc : NpcState :=
  { henryWithMask with x := -2, y := -3 }

/-- C9 counterexample: the warp timer is `d/s` as claimed, but the teleport
subtracts the RAW scaled mask offset (`state_machine.py` lines 197-200, no
`int()`), while `_get_feet_position` adds back the TRUNCATED one — with
Henry's sprite scale 0.5 and odd mask offsets (5, 7) the feet land at
`(2.5, 3.5)`, not at the chosen target `(3, 4)`. -/
theorem C9_wander_warp_counterexample :
    (5 : Rat)^2 = ((3 : Rat) - (get_feet wanderNpc).1)^2
      + ((4 : Rat) - (get_feet wanderNpc).2)^2 ∧
    wanderNpc.speed > 0 ∧ wanderNpc.hasExtractor = true ∧
    (wander_enter_offscreen wanderNpc 3 4 5).1.warpTime = 5 / wanderNpc.speed ∧
    (wander_is_complete
      { (wander_enter_offscreen wanderNpc 3 4 5).1 with
        timeInState := 5 / wanderNpc.speed } wanderNpc).1 = true ∧
    get_feet (wander_is_complete
      { (wander_enter_offscreen wanderNpc 3 4 5).1 with
        timeInState := 5 / wanderNpc.speed } wanderNpc).2
      = ((5/2 : Rat), (7/2 : Rat)) ∧
    ((5/2 : Rat), (7/2 : Rat)) ≠ ((3 : Rat), (4 : Rat)) := by
  have hfeet : get_feet wanderNpc = ((0 : Rat), (0 : Rat)) := by
    unfold get_feet
    norm_num [wanderNpc, henryWithMask, henryNoMask, pyInt]
  have hdist : (5 : Rat)^2 = ((3 : Rat) - (get_feet wanderNpc).1)^2
      + ((4 : Rat) - (get_feet wanderNpc).2)^2 := by
    rw [hfeet]
    norm_num
  have hspeed : (0 : Rat) < wanderNpc.speed := by
    norm_num [wanderNpc, henryWithMask, henryNoMask]
  obtain ⟨_, hwarp, _, hdone⟩ :=
    wander_warp_spec wanderNpc 3 4 5 hspeed (by norm_num) hdist
  obtain ⟨hcompl, hfeet'⟩ := hdone (5 / wanderNpc.speed) (le_refl _)
  refine ⟨hdist, hspeed, rfl, hwarp, by rw [hcompl], ?_, by norm_num⟩
  rw [hfeet' rfl]
  norm_num [wanderNpc, henryWithMask, henryNoMask, pyInt]

/-- C9 (amended): off-screen Wander with a valid target at Euclidean
distance `dist > 0` and speed `s > 0` issues no physical path and sets the
warp timer to exactly `dist / s`; `is_complete` is false strictly before
the timer and true once it is reached, teleporting the NPC to the target
MINUS the raw scaled mask offset while the feet re-add the truncated
offset: the feet land at `target - frac(mask_offset * sprite_scale)`
componentwise (for an NPC with a collision-mask extractor), which equals
the chosen target exactly when the scaled offsets are integers. -/
theorem C9_wander_warp_amended (npc : NpcState) (targetX targetY dist : Rat)
    (hspeed : 0 < npc.speed) (hdpos : 0 < dist)
    (hdist : dist^2 = (targetX - (get_feet npc).1)^2
      + (targetY - (get_feet npc).2)^2) :
    (wander_enter_offscreen npc targetX targetY dist).2 = npc ∧
    (wander_enter_offscreen npc targetX targetY dist).1.warpTime
      = dist / npc.speed ∧
    (∀ t : Rat, t < dist / npc.speed →
      (wander_is_complete
        { (wander_enter_offscreen npc targetX targetY dist).1 with
          timeInState := t } npc).1 = false) ∧
    (∀ t : Rat, dist / npc.speed ≤ t →
      (wander_is_complete
        { (wander_enter_offscreen npc targetX targetY dist).1 with
          timeInState := t } npc).1 = true ∧
      (npc.hasExtractor = true →
        get_feet (wander_is_complete
          { (wander_enter_offscreen npc targetX targetY dist).1 with
            timeInState := t } npc).2 =
          (targetX - ((npc.maskOffsetX : Rat) * npc.spriteScale
              - (pyInt ((npc.maskOffsetX : Rat) * npc.spriteScale) : Int)),
           targetY - ((npc.maskOffsetY : Rat) * npc.spriteScale
              - (pyInt ((npc.maskOffsetY : Rat) * npc.spriteScale) : Int)))) ∧
      (npc.hasExtractor = true →
        ((pyInt ((npc.maskOffsetX : Rat) * npc.spriteScale) : Int) : Rat)
          = (npc.maskOffsetX : Rat) * npc.spriteScale →
        ((pyInt ((npc.maskOffsetY : Rat) * npc.spriteScale) : Int) : Rat)
          = (npc.maskOffsetY : Rat) * npc.spriteScale →
        get_feet (wander_is_complete
          { (wander_enter_offscreen npc targetX targetY dist).1 with
            timeInState := t } npc).2 = (targetX, targetY))) := by
  obtain ⟨henter, hwarp, hbefore, hdone⟩ :=
    wander_warp_spec npc targetX targetY dist hspeed hdpos hdist
  refine ⟨henter, hwarp, hbefore, ?_⟩
  intro t ht
  obtain ⟨hcompl, hfeet⟩ := hdone t ht
  refine ⟨by rw [hcompl], hfeet, ?_⟩
  intro hext hix hiy
  rw [hfeet hext, hix, hiy]
  rw [Prod.mk.injEq]
  constructor <;> ring

theorem C9_wander_warp_amended_witness :
    get_feet (wander_is_complete
      { (wander_enter_offscreen { henryWithMask with
          x := -5, y := -7, spriteScale := 1 } 3 4 5).1 with
        timeInState := (1/20 : Rat) }
      { henryWithMask with x := -5, y := -7, spriteScale := 1 }).2
      = ((3 : Rat), (4 : Rat)) := by
  have hfeet : get_feet { henryWithMask with
      x := -5, y := -7, spriteScale := 1 } = ((0 : Rat), (0 : Rat)) := by
    unfold get_feet
    norm_num [henryWithMask, henryNoMask, pyInt]
  refine ((C9_wander_warp_amended
    { henryWithMask with x := -5, y := -7, spriteScale := 1 } 3 4 5
    (by norm_num [henryWithMask, henryNoMask]) (by norm_num)
    (by rw [hfeet]; norm_num)).2.2.2 (1/20)
    (by norm_num [henryWithMask, henryNoMask])).2.2
    (by norm_num [henryWithMask, henryNoMask]) ?_ ?_
  · norm_num [henryWithMask, henryNoMask, pyInt]
  · norm_num [henryWithMask, henryNoMask, pyInt]

/-- The methods defined on `MaskCollisionSystem`
(`src/world/mask_collision.py` lines 6-138). -/
def maskCollisionSystemMethods : List String :=
  ["__init__", "is_walkable", "is_portal", "rect_collides", "rect_in_portal",
   "_detect_portal_regions", "_flood_fill_portal", "get_portal_bounds"]

/-- The method names `NPC.update` and `NPC._follow_path` invoke on the
NPC's `mask_system` (`src/entities/npc.py` lines 202, 470 and 477). -/
def npcUpdateMaskMethodCalls : List String :=
  ["is_portal", "point_in_portal", "get_portal_bounds"]

/-- A Python value returned by a mask-system method call. -/
inductive PyVal where
  | bool : Bool → PyVal
  | optNat : Option Nat → PyVal
  | optRect : Option PyRect → PyVal

/-- Python attribute lookup plus call on a `MaskCollisionSystem` instance,
for the point-style queries reachable from the NPC update path (the
rect-taking methods are not called there). A name with no definition on
the class — such as `point_in_portal` — raises `AttributeError`. -/
def maskClassDispatch (mask : Mask) (method : String) (args : List Int) :
    Except String PyVal :=
  match method, args with
  | "is_walkable", [x, y] => .ok (.bool (is_walkable mask x y))
  | "is_portal", [x, y] => .ok (.optNat (is_portal mask x y))
  | "get_portal_bounds", [portalId] =>
    .ok (.optRect (get_portal_bounds mask portalId.toNat))
  | m, _ =>
    if m ∈ maskCollisionSystemMethods then .error ("TypeError: " ++ m)
    else .error ("AttributeError: " ++ m)

/-- The direction update shared by both movement branches of
`_follow_path` (`src/entities/npc.py` lines 487-491 and 514-518). -/
def updateDirection (n : NpcState) (dx dy : Rat) : NpcState :=
  if |dx| > |dy| then { n with direction := if dx > 0 then "right" else "left" }
  else { n with direction := if dy > 0 then "down" else "up" }

/-- `NPC._follow_path` (`src/entities/npc.py` lines 449-547). The float
`math.sqrt` is abstracted as the parameter `sqrtFn` (every claim proved
about this embedding holds for all `sqrtFn`). Mask-system calls go through
`maskClassDispatch`, so a call to an undefined method surfaces as
`Except.error`, the model of an uncaught Python exception. -/
def followPath (sqrtFn : Rat → Rat) (dt : Rat) (npc : NpcState) :
    Except String NpcState :=
  if hlen : npc.currentWaypointIdx ≥ npc.path.length then
    -- path complete; keep moving toward the portal during cross-scene travel
    match npc.scenePath with
    | some hops =>
      if hstep : ¬hops.isEmpty ∧ npc.currentSceneStep < hops.length then
        let step := hops.get ⟨npc.currentSceneStep, hstep.2⟩
        match step.portalId with
        | none =>
          .ok { npc with scenePath := none, targetScene := none, path := [],
                         currentWaypointIdx := 0 }
        | some portalId =>
          match npc.maskSystem with
          | some mask =>
            let feet := get_feet npc
            do
              let inPortal ← maskClassDispatch mask "point_in_portal"
                [pyInt feet.1, pyInt feet.2, (portalId : Int)]
              match inPortal with
              | .bool true => .ok { npc with path := [], currentWaypointIdx := 0 }
              | .bool false => do
                let bounds ← maskClassDispatch mask "get_portal_bounds"
                  [(portalId : Int)]
                match bounds with
                | .optRect (some pb) =>
                  let dx := (pb.centerx : Rat) - feet.1
                  let dy := (pb.centery : Rat) - feet.2
                  let distance := sqrtFn (dx ^ 2 + dy ^ 2)
                  if distance > 1 then
                    let npc' := updateDirection npc dx dy
                    let move := npc.speed * dt
                    if move ≥ distance then
                      .ok (set_position_from_feet npc' (pb.centerx : Rat)
                        (pb.centery : Rat))
                    else
                      .ok (set_position_from_feet npc'
                        (feet.1 + dx / distance * move)
                        (feet.2 + dy / distance * move))
                  else .ok { npc with path := [], currentWaypointIdx := 0 }
                | _ => .ok { npc with path := [], currentWaypointIdx := 0 }
              | _ => .error "TypeError: point_in_portal result"
          | none => .ok { npc with path := [], currentWaypointIdx := 0 }
      else .ok { npc with path := [], currentWaypointIdx := 0 }
    | none => .ok { npc with path := [], currentWaypointIdx := 0 }
  else
    -- follow the current waypoint
    let feet := get_feet npc
    let target := npc.path.get ⟨npc.currentWaypointIdx, by omega⟩
    let dx := target.1 - feet.1
    let dy := target.2 - feet.2
    let distance := sqrtFn (dx ^ 2 + dy ^ 2)
    let npc' := updateDirection npc dx dy
    let isFinal := npc.currentWaypointIdx = npc.path.length - 1
    let midTravel := is_mid_travel npc.scenePath npc.currentSceneStep
    let threshold : Rat := if isFinal ∧ midTravel then 2 else 5
    if distance < threshold then
      .ok { npc' with currentWaypointIdx := npc'.currentWaypointIdx + 1 }
    else if distance > 0 then
      let move := npc.speed * dt
      if move ≥ distance then
        .ok { set_position_from_feet npc' target.1 target.2 with
              currentWaypointIdx := npc'.currentWaypointIdx + 1 }
      else
        .ok (set_position_from_feet npc' (feet.1 + dx / distance * move)
          (feet.2 + dy / distance * move))
    else .ok npc'

/-- An NPC mid cross-scene travel whose local waypoint path is exhausted
while the current hop's portal (id 0) has not yet been entered, in a loaded
scene (mask system present): exactly the situation named by the claim. -/
def c1Npc : NpcState :=
  { npcId := "henry", x := 0, y := 0, maskOffsetX := 5, maskOffsetY := 7,
    spriteScale := 1/2, hasExtractor := true, spriteW := 290, spriteH := 440,
    speed := 100, direction := "down", path := [], currentWaypointIdx := 0,
    destination := none,
    scenePath := some [⟨"cat_cafe", some 0, (50, 60)⟩, ⟨"arcade", none, (50, 60)⟩],
    currentSceneStep := 0, targetScene := some "arcade",
    sceneRef := some "cat_cafe", maskSystem := some gapMask,
    transitioning := false }

/-- C1: the NPC update is NOT exception-free. `NPC._follow_path` invokes
`point_in_portal` on its `MaskCollisionSystem`, a method that class does
not define, so the designed-for portal-pursuit situation (local path
exhausted, cross-scene hop pending, portal not yet entered) raises an
`AttributeError` that no caller catches (`update_all_npcs` and the scene
update loop call `npc.update(dt)` bare) — contradicting the spec's
"nothing fatal" guarantee. -/
theorem C1_follow_path_attribute_error :
    ("point_in_portal" ∈ npcUpdateMaskMethodCalls ∧
     "point_in_portal" ∉ maskCollisionSystemMethods) ∧
    (∀ (sqrtFn : Rat → Rat) (dt : Rat),
      followPath sqrtFn dt c1Npc = .error "AttributeError: point_in_portal") :=
  ⟨⟨by decide, by decide⟩, fun _ _ => rfl⟩

end TokyoTimes
